import Mathlib

/-!
Shallow embedding of the account-balance / goal-contribution logic of the
my-finance-love repository (frontend hooks in
`src/frontend/src/hooks/useGoals.ts`, `useTransactions.ts`, `useTransfers.ts`
and the transfer form validation in
`src/frontend/src/components/dialogs/TransferDialog.tsx`).

Monetary amounts are modelled as integers (minor currency units), matching the
spec's requirement of exact decimal comparison semantics.  Database tables are
modelled as Lean lists of records; nullable columns as `Option`.  JavaScript
reads of the form `x || 0` on a nullable numeric column are modelled as
`Option.getD 0` (for `x = null` both give 0; for a stored number both give the
number back, since `0 || 0 = 0`).  SQL arithmetic inside the balance triggers
(`SET current_balance = current_balance + d`) propagates NULL instead, so it
is modelled as `Option.map`.

Record ids for rows created by the client (`gen_random_uuid()` on the
database side) are modelled by a counter `nextId` carried in the state:
each insert uses the current counter value and increments it, which models
exactly the uniqueness guarantee of generated primary keys.
-/

namespace MyFinance

/-! ## Data model (tables, per `useGoals.ts` interfaces and the migrations) -/

abbrev AccountId := String
abbrev GoalId := String
abbrev RecordId := Nat

/-- A row of the `accounts` table (fields that the balance logic reads:
`current_balance` is nullable, `name` is used in the insufficient-balance
error message of `useAddContribution`). Presentational columns (type, bank,
color, ...) are omitted: no claim depends on them. -/
structure Account where
  id : AccountId
  name : String
  initial_balance : Int
  current_balance : Option Int
  deriving Repr, DecidableEq

inductive GoalStatus
  | active
  | completed
  | paused
  deriving Repr, DecidableEq

/-- A row of the `financial_goals` table (`Goal` interface in `useGoals.ts`):
`current_amount` is nullable (`number | null`), `status` one of
active/completed/paused, `is_completed` a boolean flag. -/
structure Goal where
  id : GoalId
  target_amount : Int
  current_amount : Option Int
  status : GoalStatus
  is_completed : Bool
  deriving Repr, DecidableEq

/-- A row of the `goal_contributions` table (`GoalContribution` interface):
`account_id` is nullable (the column was added later by migration
`20260110055357`, existing rows have it null). -/
structure GoalContribution where
  id : RecordId
  goal_id : GoalId
  account_id : Option AccountId
  amount : Int
  deriving Repr, DecidableEq

inductive TxType
  | income
  | expense
  deriving Repr, DecidableEq

/-- A row of the `transactions` table (fields the balance rule reads). -/
structure Transaction where
  id : RecordId
  account_id : AccountId
  type : TxType
  amount : Int
  deriving Repr, DecidableEq

/-- A row of the `transfers` table (fields the balance rule reads). -/
structure Transfer where
  id : RecordId
  from_account_id : AccountId
  to_account_id : AccountId
  amount : Int
  deriving Repr, DecidableEq

/-- The persisted state the hooks operate on: the five tables, plus the
id counter modelling generated primary keys for client-inserted rows. -/
structure LedgerState where
  accounts : List Account
  goals : List Goal
  contributions : List GoalContribution
  transactions : List Transaction
  transfers : List Transfer
  nextId : RecordId
  deriving Repr, DecidableEq

/-- The read `select ... .eq("id", aid).single()` on `accounts`. -/
def findAccount (s : LedgerState) (aid : AccountId) : Option Account :=
  s.accounts.find? (fun a => a.id == aid)

/-- The read `select ... .eq("id", gid).single()` on `financial_goals`. -/
def findGoal (s : LedgerState) (gid : GoalId) : Option Goal :=
  s.goals.find? (fun g => g.id == gid)

/-- The row-level write performed on one `accounts` row by
`update({current_balance: b}).eq("id", aid)`. -/
def setBalanceRow (aid : AccountId) (b : Int) (a : Account) : Account :=
  if a.id == aid then { a with current_balance := some b } else a

/-- The write `update({current_balance: b}).eq("id", aid)` on `accounts`:
an absolute write of the balance of every row whose id matches. -/
def setAccountBalance (s : LedgerState) (aid : AccountId) (b : Int) : LedgerState :=
  { s with accounts := s.accounts.map (setBalanceRow aid b) }

/-- The write `update({current_amount, status, is_completed}).eq("id", gid)`
on `financial_goals`: writes the three goal fields of every row whose id
matches. -/
def writeGoalFields (s : LedgerState) (gid : GoalId) (amt : Int)
    (st : GoalStatus) (ic : Bool) : LedgerState :=
  { s with goals := s.goals.map (fun g =>
      if g.id == gid then
        { g with current_amount := some amt, status := st, is_completed := ic }
      else g) }

/-! ## Errors -/

inductive OpError
  | notFound
  | insufficientBalance (accountName : String)
  | storage
  deriving Repr, DecidableEq

/-! ## Goal contributions (`useAddContribution`, `useDeleteContribution`) -/

/-- Argument of `useAddContribution.mutationFn` (`ContributionInsert`
interface; `date`/`description`/`transaction_id` omitted — they do not enter
any balance or status computation). -/
structure ContributionInsert where
  goal_id : GoalId
  account_id : AccountId
  amount : Int
  deriving Repr, DecidableEq

/-- The five storage calls performed by `useAddContribution.mutationFn`,
in source order. -/
inductive ContribStep
  | fetchAccount
  | insertContribution
  | debitAccount
  | fetchGoal
  | updateGoal
  deriving Repr, DecidableEq

/-- The contribution row inserted by `useAddContribution.mutationFn`
(lines 251-263); the generated primary key is the state's id counter. -/
def newContribRow (s : LedgerState) (c : ContributionInsert) : GoalContribution :=
  { id := s.nextId, goal_id := c.goal_id,
    account_id := some c.account_id, amount := c.amount }

/-- The state after the contribution-row insert of
`useAddContribution.mutationFn` (lines 251-263). -/
def insContribState (s : LedgerState) (c : ContributionInsert) : LedgerState :=
  { s with
    contributions := s.contributions ++ [newContribRow s c],
    nextId := s.nextId + 1 }

/-- Embedding of `useAddContribution.mutationFn`
(`src/frontend/src/hooks/useGoals.ts`, lines 234-298), with a storage-failure
oracle `fail` saying which supabase calls report an error.  The result is the
pair of the state actually persisted and the error thrown, if any.  Source
order: fetch account; insufficient-balance check
(`(accountData.current_balance || 0) < contribution.amount`); insert the
contribution row; write the debited balance
(`(accountData.current_balance || 0) - contribution.amount`); fetch the goal;
write `current_amount = (goalData.current_amount || 0) + amount`,
`status = isCompleted ? "completed" : "active"`,
`is_completed = isCompleted` where
`isCompleted = newAmount >= goalData.target_amount`.  Each step that fails
throws, leaving all previously persisted steps in place (there is no
transaction or rollback in the source).  The final goal update's error is
discarded by the source (its result is not destructured), which the embedding
mirrors: a failure there is not reported. -/
def addContributionF (fail : ContribStep → Bool) (s : LedgerState)
    (c : ContributionInsert) : LedgerState × Option OpError :=
  if fail .fetchAccount then (s, some .storage) else
  match findAccount s c.account_id with
  | none => (s, some .notFound)
  | some acct =>
    if acct.current_balance.getD 0 < c.amount then
      (s, some (.insufficientBalance acct.name))
    else if fail .insertContribution then (s, some .storage) else
    let s1 : LedgerState := insContribState s c
    if fail .debitAccount then (s1, some .storage) else
    let s2 := setAccountBalance s1 c.account_id
      (acct.current_balance.getD 0 - c.amount)
    if fail .fetchGoal then (s2, some .storage) else
    match findGoal s2 c.goal_id with
    | none => (s2, some .notFound)
    | some g =>
      if fail .updateGoal then (s2, none) else
      let newAmount := g.current_amount.getD 0 + c.amount
      let isCompleted : Bool := newAmount ≥ g.target_amount
      (writeGoalFields s2 c.goal_id newAmount
        (if isCompleted then .completed else .active) isCompleted, none)

/-- The oracle of a run in which every storage call succeeds. -/
def noFail : ContribStep → Bool := fun _ => false

/-- The run of `useAddContribution.mutationFn` in which every storage call
succeeds. -/
def addContribution (s : LedgerState) (c : ContributionInsert) :
    LedgerState × Option OpError :=
  addContributionF noFail s c

/-- Argument of `useDeleteContribution.mutationFn`:
`{ id, goalId, amount, accountId }`, passed by the callers from the fields of
the contribution row being removed (`ContributionDialog.tsx` line 330). -/
structure RemoveContributionArgs where
  id : RecordId
  goalId : GoalId
  amount : Int
  accountId : Option AccountId
  deriving Repr, DecidableEq

/-- The write `delete().eq("id", i)` on `goal_contributions`: removes every
row whose id matches. -/
def delContribState (s : LedgerState) (i : RecordId) : LedgerState :=
  { s with contributions := s.contributions.filter (fun c => c.id != i) }

/-- Second half of `useDeleteContribution.mutationFn` (lines 337-363): delete
the contribution row, fetch the goal, write
`current_amount = max(0, (goalData.current_amount || 0) - amount)`,
`status = "active"`, `is_completed = false`.  The final goal update's error
is discarded by the source (not destructured). -/
def removeContributionRest (s1 : LedgerState) (r : RemoveContributionArgs) :
    LedgerState × Option OpError :=
  let s2 : LedgerState := delContribState s1 r.id
  match findGoal s2 r.goalId with
  | none => (s2, some .notFound)
  | some g =>
    let newAmount := max 0 (g.current_amount.getD 0 - r.amount)
    (writeGoalFields s2 r.goalId newAmount .active false, none)

/-- Embedding of `useDeleteContribution.mutationFn`
(`src/frontend/src/hooks/useGoals.ts`, lines 316-363), on a run where every
storage call succeeds: if an `accountId` is linked, fetch that account and
write back `(accountData.current_balance || 0) + amount`; then delete the
row and update the goal (`removeContributionRest`). -/
def removeContribution (s : LedgerState) (r : RemoveContributionArgs) :
    LedgerState × Option OpError :=
  match r.accountId with
  | some aid =>
    match findAccount s aid with
    | none => (s, some .notFound)
    | some acct =>
      removeContributionRest
        (setAccountBalance s aid (acct.current_balance.getD 0 + r.amount)) r
  | none => removeContributionRest s r

/-! ## Goal create / update (`useCreateGoal`, `useUpdateGoal`) -/

/-- Argument of `useCreateGoal.mutationFn` (`GoalInsert` interface; optional
fields not entering goal-state logic omitted). -/
structure GoalInsert where
  target_amount : Int
  current_amount : Option Int
  status : Option GoalStatus
  deriving Repr, DecidableEq

/-- Embedding of `useCreateGoal.mutationFn`
(`src/frontend/src/hooks/useGoals.ts`, lines 150-165): inserts a goal row with
`status: goal.status || "active"` and `current_amount: goal.current_amount || 0`.
The insert does not set `is_completed`, so the row takes the column's database
default: the initial-schema migration (bundled in
`src/frontend/src/components/layout/MobileNav.tsx`) declares
`is_completed BOOLEAN DEFAULT false` on `financial_goals`. -/
def createGoal (s : LedgerState) (gid : GoalId) (g : GoalInsert) : LedgerState :=
  { s with goals := s.goals ++
      [{ id := gid,
         target_amount := g.target_amount,
         current_amount := some (g.current_amount.getD 0),
         status := g.status.getD .active,
         is_completed := false }] }

/-- Argument of `useUpdateGoal.mutationFn` (`GoalUpdate` interface, fields
entering goal-state logic). -/
structure GoalUpdateArgs where
  target_amount : Option Int
  current_amount : Option Int
  status : Option GoalStatus
  deriving Repr, DecidableEq

/-- Embedding of `useUpdateGoal.mutationFn`
(`src/frontend/src/hooks/useGoals.ts`, lines 181-199): applies the provided
fields to the row with the given id and derives `is_completed` from the
provided status: `is_completed = true` if `goal.status === "completed"`,
`is_completed = false` if any other status is provided (`else if (goal.status)`),
unchanged if no status is provided. -/
def updateGoal (s : LedgerState) (gid : GoalId) (u : GoalUpdateArgs) : LedgerState :=
  { s with goals := s.goals.map (fun g =>
      if g.id == gid then
        let g1 : Goal :=
          { g with
            target_amount := u.target_amount.getD g.target_amount,
            current_amount :=
              match u.current_amount with
              | some v => some v
              | none => g.current_amount,
            status := u.status.getD g.status }
        match u.status with
        | some .completed => { g1 with is_completed := true }
        | some _ => { g1 with is_completed := false }
        | none => g1
      else g) }

/-! ## Transaction balance rule

The hooks in `src/frontend/src/hooks/useTransactions.ts` only insert, update
and delete rows of the `transactions` table.  The balance maintenance is
performed by the plpgsql trigger function
`update_account_balance_on_transaction` of the initial-schema migration
(bundled in `src/frontend/src/components/layout/MobileNav.tsx`), fired
`AFTER INSERT OR UPDATE OR DELETE ON public.transactions FOR EACH ROW` by
trigger `on_transaction_change`.  `INSERT`: `current_balance + NEW.amount`
for income, `- NEW.amount` otherwise, at `NEW.account_id`; `DELETE`: the
opposite signs with `OLD`; `UPDATE`: first reverse `OLD`, then apply `NEW`
(at `OLD.account_id` and `NEW.account_id` respectively).  The definitions
below embed the trigger's statements composed with the hook's row
mutation. -/

/-- The signed amount the trigger adds on `INSERT` (income branch adds
`amount`, the `ELSE` branch subtracts it). -/
def signedAmount (t : Transaction) : Int :=
  match t.type with
  | .income => t.amount
  | .expense => -t.amount

/-- The effect of one trigger statement
`UPDATE public.accounts SET current_balance = current_balance + d WHERE id = aid`
on one `accounts` row: SQL arithmetic propagates NULL, so a null stored
balance stays null (`accounts.current_balance` is a nullable
`DECIMAL(15,2) DEFAULT 0`). -/
def deltaRow (aid : AccountId) (d : Int) (a : Account) : Account :=
  if a.id == aid then
    { a with current_balance := a.current_balance.map (fun b => b + d) }
  else a

/-- One trigger statement
`UPDATE public.accounts SET current_balance = current_balance + d WHERE id = aid`
over the whole table. -/
def applyAccountDelta (s : LedgerState) (aid : AccountId) (d : Int) : LedgerState :=
  { s with accounts := s.accounts.map (deltaRow aid d) }

/-- Apply a list of (account id, delta) balance adjustments in order to an
account table. -/
def applyDeltaList (ds : List (AccountId × Int)) (l : List Account) : List Account :=
  ds.foldl (fun acc p => acc.map (deltaRow p.1 p.2)) l

/-- Apply a list of (account id, delta) adjustments in order to one row. -/
def deltaRows (ds : List (AccountId × Int)) (a : Account) : Account :=
  ds.foldl (fun a p => deltaRow p.1 p.2 a) a

/-- The net amount a delta list adds to the account `x`. -/
def deltaSum (ds : List (AccountId × Int)) (x : AccountId) : Int :=
  (ds.map (fun p => if p.1 == x then p.2 else 0)).sum

/-- The transaction row inserted by `useCreateTransaction`; the generated
primary key is the state's id counter. -/
def newTxRow (s : LedgerState) (aid : AccountId) (ty : TxType)
    (amount : Int) : Transaction :=
  { id := s.nextId, account_id := aid, type := ty, amount := amount }

/-- The transfer row inserted by `useCreateTransfer`. -/
def newTransferRow (s : LedgerState) (fromId toId : AccountId)
    (amount : Int) : Transfer :=
  { id := s.nextId, from_account_id := fromId, to_account_id := toId,
    amount := amount }

/-- The run of `useCreateTransaction.mutationFn` with its `AFTER INSERT`
trigger firing: the hook inserts the row, then
`update_account_balance_on_transaction` adds the signed `NEW.amount` at
`NEW.account_id`.  A `WHERE id = ...` matching no account row adjusts
nothing. -/
def createTransaction (s : LedgerState) (aid : AccountId) (ty : TxType)
    (amount : Int) : LedgerState :=
  let t : Transaction := newTxRow s aid ty amount
  let s1 : LedgerState :=
    { s with transactions := s.transactions ++ [t], nextId := s.nextId + 1 }
  applyAccountDelta s1 aid (signedAmount t)

/-- Argument of `useUpdateTransaction.mutationFn` (fields entering the
balance rule; absent fields keep the row's values). -/
structure TransactionUpdateArgs where
  account_id : Option AccountId
  type : Option TxType
  amount : Option Int
  deriving Repr, DecidableEq

/-- The transaction row as it stands after an update: provided fields
replace the old ones. -/
def mergedTxRow (old : Transaction) (i : RecordId)
    (u : TransactionUpdateArgs) : Transaction :=
  { id := i,
    account_id := u.account_id.getD old.account_id,
    type := u.type.getD old.type,
    amount := u.amount.getD old.amount }

/-- The run of `useUpdateTransaction.mutationFn` with its `AFTER UPDATE`
trigger firing: the hook updates by primary key (`.single()` errors,
mutating nothing, when no row matches); `update_account_balance_on_transaction`
then reverses `OLD` (subtract for income, add otherwise, at
`OLD.account_id`) and applies `NEW` at the possibly different
`NEW.account_id`. -/
def updateTransaction (s : LedgerState) (i : RecordId)
    (u : TransactionUpdateArgs) : LedgerState :=
  match s.transactions.find? (fun t => t.id == i) with
  | none => s
  | some old =>
    let newTx : Transaction := mergedTxRow old i u
    let s1 : LedgerState :=
      { s with transactions := s.transactions.map (fun t =>
          if t.id == i then newTx else t) }
    let s2 := applyAccountDelta s1 old.account_id (- signedAmount old)
    applyAccountDelta s2 newTx.account_id (signedAmount newTx)

/-- The run of `useDeleteTransaction.mutationFn` with its `AFTER DELETE`
trigger firing: the hook deletes by primary key (a delete matching no row
mutates nothing and fires no trigger);
`update_account_balance_on_transaction` then subtracts `OLD.amount` for
income, adds it otherwise, at `OLD.account_id`. -/
def deleteTransaction (s : LedgerState) (i : RecordId) : LedgerState :=
  match s.transactions.find? (fun t => t.id == i) with
  | none => s
  | some old =>
    let s1 : LedgerState :=
      { s with transactions := s.transactions.filter (fun t => t.id != i) }
    applyAccountDelta s1 old.account_id (- signedAmount old)

/-! ## Transfer balance rule

As for transactions, the hooks in `src/frontend/src/hooks/useTransfers.ts`
only mutate rows of the `transfers` table.  The balances are maintained by
the trigger function `update_account_balance_on_transfer` of the same
initial-schema migration, fired
`AFTER INSERT OR UPDATE OR DELETE ON public.transfers FOR EACH ROW` by
trigger `on_transfer_change`.  `INSERT`: subtract `NEW.amount` at
`NEW.from_account_id`, then add it at `NEW.to_account_id`; `DELETE`: add at
`OLD.from_account_id`, then subtract at `OLD.to_account_id`; `UPDATE`:
reverse the `OLD` pair, then apply the `NEW` pair. -/

/-- The `INSERT` branch of `update_account_balance_on_transfer`: subtract
`amount` at `from_account_id`, then add it at `to_account_id`. -/
def applyTransferEffect (s : LedgerState) (tr : Transfer) : LedgerState :=
  applyAccountDelta (applyAccountDelta s tr.from_account_id (- tr.amount))
    tr.to_account_id tr.amount

/-- The `DELETE` branch of `update_account_balance_on_transfer`: add
`amount` at `from_account_id`, then subtract it at `to_account_id`. -/
def reverseTransferEffect (s : LedgerState) (tr : Transfer) : LedgerState :=
  applyAccountDelta (applyAccountDelta s tr.from_account_id tr.amount)
    tr.to_account_id (- tr.amount)

/-- The run of `useCreateTransfer.mutationFn` with its `AFTER INSERT`
trigger firing: the hook inserts the row, then
`update_account_balance_on_transfer` performs the two balance updates. -/
def createTransfer (s : LedgerState) (fromId toId : AccountId)
    (amount : Int) : LedgerState :=
  let tr : Transfer := newTransferRow s fromId toId amount
  let s1 : LedgerState :=
    { s with transfers := s.transfers ++ [tr], nextId := s.nextId + 1 }
  applyTransferEffect s1 tr

/-- Argument of `useUpdateTransfer.mutationFn` (fields entering the balance
rule). -/
structure TransferUpdateArgs where
  from_account_id : Option AccountId
  to_account_id : Option AccountId
  amount : Option Int
  deriving Repr, DecidableEq

/-- The transfer row as it stands after an update. -/
def mergedTransferRow (old : Transfer) (i : RecordId)
    (u : TransferUpdateArgs) : Transfer :=
  { id := i,
    from_account_id := u.from_account_id.getD old.from_account_id,
    to_account_id := u.to_account_id.getD old.to_account_id,
    amount := u.amount.getD old.amount }

/-- The run of `useUpdateTransfer.mutationFn` with its `AFTER UPDATE`
trigger firing: the hook updates by primary key (`.single()` errors,
mutating nothing, when no row matches);
`update_account_balance_on_transfer` then reverses the `OLD` pair of
balance updates and applies the `NEW` pair. -/
def updateTransfer (s : LedgerState) (i : RecordId)
    (u : TransferUpdateArgs) : LedgerState :=
  match s.transfers.find? (fun t => t.id == i) with
  | none => s
  | some old =>
    let newTr : Transfer := mergedTransferRow old i u
    let s1 : LedgerState :=
      { s with transfers := s.transfers.map (fun t => if t.id == i then newTr else t) }
    applyTransferEffect (reverseTransferEffect s1 old) newTr

/-- The run of `useDeleteTransfer.mutationFn` with its `AFTER DELETE`
trigger firing: the hook deletes by primary key;
`update_account_balance_on_transfer` then adds `OLD.amount` at
`OLD.from_account_id` and subtracts it at `OLD.to_account_id`. -/
def deleteTransfer (s : LedgerState) (i : RecordId) : LedgerState :=
  match s.transfers.find? (fun t => t.id == i) with
  | none => s
  | some old =>
    let s1 : LedgerState :=
      { s with transfers := s.transfers.filter (fun t => t.id != i) }
    reverseTransferEffect s1 old

/-! ## Transfer form validation (`TransferDialog.tsx`) -/

/-- The fields of the transfer creation form
(`TransferDialog.tsx`, `TransferFormValues`). -/
structure TransferForm where
  from_account_id : String
  to_account_id : String
  amount : Int
  date : String
  deriving Repr, DecidableEq

/-- The issues `transferSchema` can report. -/
inductive TransferIssue
  | fromAccountRequired
  | toAccountRequired
  | amountNotPositive
  | dateRequired
  | invalidTransfer
  deriving Repr, DecidableEq

/-- The base object checks of `transferSchema`
(`src/frontend/src/components/dialogs/TransferDialog.tsx`, lines 35-40):
`from_account_id` and `to_account_id` nonempty, `amount` positive, `date`
nonempty. -/
def transferBaseIssues (f : TransferForm) : List TransferIssue :=
  (if f.from_account_id.length < 1 then [TransferIssue.fromAccountRequired] else []) ++
  (if f.to_account_id.length < 1 then [TransferIssue.toAccountRequired] else []) ++
  (if f.amount ≤ 0 then [TransferIssue.amountNotPositive] else []) ++
  (if f.date.length < 1 then [TransferIssue.dateRequired] else [])

/-- Embedding of `transferSchema` (lines 35-44): the `.refine` rejecting
`from_account_id == to_account_id` runs only when the base object checks
pass, which is zod's refinement semantics. -/
def transferSchemaIssues (f : TransferForm) : List TransferIssue :=
  let base := transferBaseIssues f
  if base.isEmpty then
    if f.from_account_id == f.to_account_id then [TransferIssue.invalidTransfer] else []
  else base

inductive SubmitError
  | validation (issues : List TransferIssue)
  deriving Repr, DecidableEq

/-- Embedding of the transfer dialog's submission path:
`form.handleSubmit(onSubmit)` invokes `onSubmit` — and hence
`useCreateTransfer` and the balance effect — only when `transferSchema`
reports no issue; otherwise nothing is mutated and the issues are reported. -/
def submitTransfer (s : LedgerState) (f : TransferForm) :
    LedgerState × Option SubmitError :=
  let issues := transferSchemaIssues f
  if issues.isEmpty then
    (createTransfer s f.from_account_id f.to_account_id f.amount, none)
  else (s, some (.validation issues))

/-! ## Operation sequences and the balance invariant -/

/-- The operations of spec §6 that touch account balances (account and goal
creation/deletion are not among them).  `removeContrib` carries only the row
id: the callers pass `goalId`, `amount` and `accountId` read from the row
being removed (`ContributionDialog.tsx` line 330). -/
inductive LedgerOp
  | createTx (aid : AccountId) (ty : TxType) (amount : Int)
  | updateTx (i : RecordId) (u : TransactionUpdateArgs)
  | deleteTx (i : RecordId)
  | createTr (fromId toId : AccountId) (amount : Int)
  | updateTr (i : RecordId) (u : TransferUpdateArgs)
  | deleteTr (i : RecordId)
  | addContrib (c : ContributionInsert)
  | removeContrib (i : RecordId)
  deriving Repr, DecidableEq

/-- Run one operation to completion (every storage call succeeds); a rejected
operation (insufficient balance, missing row) leaves the visible state it
produced, exactly as the corresponding hook does. -/
def applyOp (s : LedgerState) (op : LedgerOp) : LedgerState :=
  match op with
  | .createTx aid ty amount => createTransaction s aid ty amount
  | .updateTx i u => updateTransaction s i u
  | .deleteTx i => deleteTransaction s i
  | .createTr fromId toId amount => createTransfer s fromId toId amount
  | .updateTr i u => updateTransfer s i u
  | .deleteTr i => deleteTransfer s i
  | .addContrib c => (addContribution s c).1
  | .removeContrib i =>
    match s.contributions.find? (fun c => c.id == i) with
    | none => s
    | some c =>
      (removeContribution s
        { id := i, goalId := c.goal_id, amount := c.amount,
          accountId := c.account_id }).1

/-- Signed effect of a transaction row on the account `aid`. -/
def txEffectOn (aid : AccountId) (t : Transaction) : Int :=
  if t.account_id == aid then signedAmount t else 0

/-- Signed effect of a transfer row on the account `aid`
(credit destination, debit source). -/
def trEffectOn (aid : AccountId) (t : Transfer) : Int :=
  (if t.to_account_id == aid then t.amount else 0) -
  (if t.from_account_id == aid then t.amount else 0)

/-- Signed effect of a goal-contribution row on the account `aid`
(a debit of the linked account). -/
def contribEffectOn (aid : AccountId) (c : GoalContribution) : Int :=
  if c.account_id == some aid then -c.amount else 0

/-- Sum of the signed effects of all live transactions, transfers and goal
contributions referencing the account `aid`. -/
def accountEffects (s : LedgerState) (aid : AccountId) : Int :=
  (s.transactions.map (txEffectOn aid)).sum +
  (s.transfers.map (trEffectOn aid)).sum +
  (s.contributions.map (contribEffectOn aid)).sum

/-- The spec §3 account invariant: every account's `current_balance` equals
its `initial_balance` plus the sum of the signed effects of all live records
referencing it. -/
def balanced (s : LedgerState) : Prop :=
  ∀ a ∈ s.accounts, a.current_balance = some (a.initial_balance + accountEffects s a.id)

instance (s : LedgerState) : Decidable (balanced s) := by
  unfold balanced; infer_instance

/-- Well-formedness of the stored tables: generated record ids are below the
id counter and distinct within each table, and account ids are distinct
(primary keys). -/
def wf (s : LedgerState) : Prop :=
  (∀ t ∈ s.transactions, t.id < s.nextId) ∧
  (s.transactions.map (fun t => t.id)).Nodup ∧
  (∀ t ∈ s.transfers, t.id < s.nextId) ∧
  (s.transfers.map (fun t => t.id)).Nodup ∧
  (∀ c ∈ s.contributions, c.id < s.nextId) ∧
  (s.contributions.map (fun c => c.id)).Nodup ∧
  (s.accounts.map (fun a => a.id)).Nodup

instance (s : LedgerState) : Decidable (wf s) := by
  unfold wf; infer_instance

/-! ## Single events and their reversal (spec §8, idempotence of reversal) -/

/-- A single balance-affecting event: a transaction, a transfer, or a goal
contribution. -/
inductive Event
  | transaction (aid : AccountId) (ty : TxType) (amount : Int)
  | transfer (fromId toId : AccountId) (amount : Int)
  | contribution (c : ContributionInsert)
  deriving Repr, DecidableEq

/-- Apply a single event (the record it creates has id `s.nextId`).
Only a contribution can be rejected. -/
def applyEvent (s : LedgerState) (e : Event) : LedgerState × Option OpError :=
  match e with
  | .transaction aid ty amount => (createTransaction s aid ty amount, none)
  | .transfer fromId toId amount => (createTransfer s fromId toId amount, none)
  | .contribution c => addContribution s c

/-- Reverse a just-applied event by deleting the record with id `i`; for a
contribution the caller passes the row's `goalId`, `amount` and `accountId`,
as `ContributionDialog.tsx` does. -/
def reverseEvent (s : LedgerState) (e : Event) (i : RecordId) : LedgerState :=
  match e with
  | .transaction _ _ _ => deleteTransaction s i
  | .transfer _ _ _ => deleteTransfer s i
  | .contribution c =>
    (removeContribution s
      { id := i, goalId := c.goal_id, amount := c.amount,
        accountId := some c.account_id }).1

/-! ## Goal-state invariant and the operations that write goal state -/

/-- The spec §3 goal invariant: `is_completed == (status == completed)`. -/
def goalInv (g : Goal) : Prop :=
  g.is_completed = true ↔ g.status = GoalStatus.completed

instance (g : Goal) : Decidable (goalInv g) := by
  unfold goalInv; infer_instance

/-- The four operations that write goal state: goal create, goal update,
contribution add, contribution remove. -/
inductive GoalWrite
  | create (gid : GoalId) (gi : GoalInsert)
  | update (gid : GoalId) (u : GoalUpdateArgs)
  | addContrib (c : ContributionInsert)
  | removeContrib (r : RemoveContributionArgs)
  deriving Repr, DecidableEq

/-- Run one goal-writing operation to completion. -/
def applyGoalWrite (s : LedgerState) : GoalWrite → LedgerState
  | .create gid gi => createGoal s gid gi
  | .update gid u => updateGoal s gid u
  | .addContrib c => (addContribution s c).1
  | .removeContrib r => (removeContribution s r).1

/-! ## Concrete instances used as witnesses and counterexamples -/

/-- The empty ledger. -/
def emptyState : LedgerState :=
  { accounts := [], goals := [], contributions := [],
    transactions := [], transfers := [], nextId := 0 }

/-- A sample account with balance 100. -/
def acct100 : Account :=
  { id := "a1", name := "Main", initial_balance := 100, current_balance := some 100 }

/-- A sample account with a null stored balance. -/
def acctNull : Account :=
  { id := "a1", name := "Main", initial_balance := 0, current_balance := none }

/-- A sample goal at 900 of 1000. -/
def goal900 : Goal :=
  { id := "g1", target_amount := 1000, current_amount := some 900,
    status := .active, is_completed := false }

/-- A sample state: one account with balance 100, one goal at 900 of 1000. -/
def sampleState : LedgerState :=
  { accounts := [acct100], goals := [goal900], contributions := [],
    transactions := [], transfers := [], nextId := 0 }

/-- A sample state whose only account has a null stored balance. -/
def nullState : LedgerState :=
  { accounts := [acctNull], goals := [], contributions := [],
    transactions := [], transfers := [], nextId := 0 }

/-- A storage oracle failing exactly the account-debit step. -/
def failAtDebit : ContribStep → Bool :=
  fun st => st == ContribStep.debitAccount

/-- A sample account with balance 500. -/
def acct500 : Account :=
  { id := "a1", name := "Main", initial_balance := 500, current_balance := some 500 }

/-- A sample state: one account with balance 500, one goal at 900 of 1000. -/
def richState : LedgerState :=
  { accounts := [acct500], goals := [goal900], contributions := [],
    transactions := [], transfers := [], nextId := 0 }

/-- A sample account at balance 350 (500 minus a 150 contribution). -/
def acct350 : Account :=
  { id := "a1", name := "Main", initial_balance := 500, current_balance := some 350 }

/-- A sample completed goal at 1050 of 1000. -/
def goal1050 : Goal :=
  { id := "g1", target_amount := 1000, current_amount := some 1050,
    status := .completed, is_completed := true }

/-- A sample stored contribution row of 150 from account a1. -/
def contribRow0 : GoalContribution :=
  { id := 0, goal_id := "g1", account_id := some "a1", amount := 150 }

/-- A sample state holding `contribRow0`, its debited account and its
completed goal. -/
def contribState : LedgerState :=
  { accounts := [acct350], goals := [goal1050], contributions := [contribRow0],
    transactions := [], transfers := [], nextId := 1 }

/-- The removal arguments the contribution dialog passes for `contribRow0`. -/
def removeArgs0 : RemoveContributionArgs :=
  { id := 0, goalId := "g1", amount := 150, accountId := some "a1" }

/-! ## List helper lemmas -/

theorem map_eq_self_of {α : Type} (f : α → α) :
    ∀ l : List α, (∀ a ∈ l, f a = a) → l.map f = l := by
  intro l h
  induction l with
  | nil => rfl
  | cons a l ih =>
    simp only [List.map_cons]
    rw [h a (by simp), ih (fun b hb => h b (by simp [hb]))]

theorem filter_eq_self_of {α : Type} (p : α → Bool) :
    ∀ l : List α, (∀ a ∈ l, p a = true) → l.filter p = l := by
  intro l h
  induction l with
  | nil => rfl
  | cons a l ih =>
    rw [List.filter_cons_of_pos (h a (by simp)), ih (fun b hb => h b (by simp [hb]))]

theorem find?_map_pred {α : Type} (f : α → α) (p : α → Bool)
    (h : ∀ a, p (f a) = p a) :
    ∀ l : List α, (l.map f).find? p = (l.find? p).map f := by
  intro l
  induction l with
  | nil => rfl
  | cons a l ih =>
    by_cases hpa : p a = true
    · simp only [List.map_cons]
      rw [List.find?_cons_of_pos _ (by rw [h a]; exact hpa),
        List.find?_cons_of_pos _ hpa, Option.map_some']
    · simp only [List.map_cons]
      rw [List.find?_cons_of_neg _ (by rw [h a]; simpa using hpa),
        List.find?_cons_of_neg _ (by simpa using hpa), ih]

theorem find?_append_last {α : Type} (p : α → Bool) (b : α) (hb : p b = true) :
    ∀ l : List α, (∀ a ∈ l, p a = false) →
      (l ++ [b]).find? p = some b := by
  intro l h
  induction l with
  | nil => simp [List.find?_cons_of_pos _ hb]
  | cons a l ih =>
    rw [List.cons_append, List.find?_cons_of_neg _ (by simp [h a (by simp)]),
      ih (fun x hx => h x (by simp [hx]))]

theorem eq_of_mem_find?_key {α K : Type} [BEq K] [LawfulBEq K]
    (key : α → K) (i : K) :
    ∀ (l : List α) (a b : α), a ∈ l → key a = i →
      l.find? (fun x => key x == i) = some b →
      (l.map key).Nodup → a = b := by
  intro l
  induction l with
  | nil => intro a b ha; simp at ha
  | cons x l ih =>
    intro a b ha hkey hfind hnd
    simp only [List.map_cons, List.nodup_cons] at hnd
    by_cases hx : (key x == i) = true
    · rw [List.find?_cons_of_pos (p := fun y => key y == i) _ hx] at hfind
      obtain rfl : x = b := by simpa using hfind
      rcases List.mem_cons.mp ha with rfl | hmem
      · rfl
      · exfalso
        apply hnd.1
        have hba : key x = key a := by rw [eq_of_beq hx, hkey]
        rw [hba]
        exact List.mem_map_of_mem key hmem
    · rw [List.find?_cons_of_neg (p := fun y => key y == i) _ hx] at hfind
      rcases List.mem_cons.mp ha with rfl | hmem
      · exact absurd (by simp [hkey]) hx
      · exact ih a b hmem hkey hfind hnd.2

theorem sum_map_replace {α K : Type} [BEq K] [LawfulBEq K]
    (key : α → K) (f : α → Int) (i : K) (b : α) :
    ∀ (l : List α) (a : α),
      l.find? (fun x => key x == i) = some a →
      (l.map key).Nodup →
      ((l.map (fun x => if key x == i then b else x)).map f).sum
        = (l.map f).sum - f a + f b := by
  intro l
  induction l with
  | nil => intro a h; simp at h
  | cons x l ih =>
    intro a hfind hnd
    simp only [List.map_cons, List.nodup_cons] at hnd
    by_cases hx : (key x == i) = true
    · rw [List.find?_cons_of_pos (p := fun y => key y == i) _ hx] at hfind
      have hxa : x = a := by simpa using hfind
      have hrest : l.map (fun y => if key y == i then b else y) = l := by
        refine map_eq_self_of _ l (fun y hy => ?_)
        have hne : ¬ ((key y == i) = true) := by
          intro hcon
          apply hnd.1
          have hyx : key y = key x := by rw [eq_of_beq hcon, eq_of_beq hx]
          rw [← hyx]
          exact List.mem_map_of_mem key hy
        simp [hne]
      subst hxa
      simp only [List.map_cons, List.sum_cons, hrest, if_pos hx]
      ring
    · rw [List.find?_cons_of_neg (p := fun y => key y == i) _ hx] at hfind
      simp only [List.map_cons, List.sum_cons, if_neg hx, ih a hfind hnd.2]
      ring

theorem sum_map_filter_ne {α K : Type} [BEq K] [LawfulBEq K]
    (key : α → K) (f : α → Int) (i : K) :
    ∀ (l : List α) (a : α),
      l.find? (fun x => key x == i) = some a →
      (l.map key).Nodup →
      ((l.filter (fun x => key x != i)).map f).sum = (l.map f).sum - f a := by
  intro l
  induction l with
  | nil => intro a h; simp at h
  | cons x l ih =>
    intro a hfind hnd
    simp only [List.map_cons, List.nodup_cons] at hnd
    by_cases hx : (key x == i) = true
    · rw [List.find?_cons_of_pos (p := fun y => key y == i) _ hx] at hfind
      have hxa : x = a := by simpa using hfind
      have hrest : l.filter (fun y => key y != i) = l := by
        refine filter_eq_self_of _ l (fun y hy => ?_)
        have hne : ¬ ((key y == i) = true) := by
          intro hcon
          apply hnd.1
          have hyx : key y = key x := by rw [eq_of_beq hcon, eq_of_beq hx]
          rw [← hyx]
          exact List.mem_map_of_mem key hy
        simp [bne, hne]
      subst hxa
      rw [List.filter_cons_of_neg (by simp [bne, hx]), hrest]
      simp only [List.map_cons, List.sum_cons]
      ring
    · rw [List.find?_cons_of_neg (p := fun y => key y == i) _ hx] at hfind
      rw [List.filter_cons_of_pos (by simp [bne, hx])]
      simp only [List.map_cons, List.sum_cons, ih a hfind hnd.2]
      ring

theorem map_key_map {α K : Type} (f : α → α) (key : α → K)
    (h : ∀ a, key (f a) = key a) (l : List α) :
    (l.map f).map key = l.map key := by
  rw [List.map_map]
  exact List.map_congr_left (fun a _ => h a)

/-! ## Observations of single writes -/

theorem findAccount_setAccountBalance_self (s : LedgerState) (aid : AccountId)
    (b : Int) :
    findAccount (setAccountBalance s aid b) aid
      = (findAccount s aid).map (fun a => { a with current_balance := some b }) := by
  unfold findAccount setAccountBalance
  rw [find?_map_pred (setBalanceRow aid b) (fun a => a.id == aid)
    (fun a => by unfold setBalanceRow; by_cases h : (a.id == aid) = true <;> simp [h])]
  cases hfind : s.accounts.find? (fun a => a.id == aid) with
  | none => rfl
  | some a =>
    have hp : (a.id == aid) = true :=
      List.find?_some (p := fun a : Account => a.id == aid) hfind
    simp [setBalanceRow, hp]

theorem findGoal_writeGoalFields_self (s : LedgerState) (gid : GoalId)
    (amt : Int) (st : GoalStatus) (ic : Bool) :
    findGoal (writeGoalFields s gid amt st ic) gid
      = (findGoal s gid).map (fun g =>
          { g with current_amount := some amt, status := st, is_completed := ic }) := by
  unfold findGoal writeGoalFields
  dsimp only
  rw [find?_map_pred
    (fun g => if g.id == gid then
      { g with current_amount := some amt, status := st, is_completed := ic }
    else g)
    (fun g : Goal => g.id == gid)
    (fun g => by by_cases h : (g.id == gid) = true <;> simp [h])]
  cases hfind : s.goals.find? (fun g => g.id == gid) with
  | none => rfl
  | some g =>
    have hp : (g.id == gid) = true :=
      List.find?_some (p := fun g : Goal => g.id == gid) hfind
    simp only [Option.map_some']
    rw [if_pos hp]

theorem findGoal_setAccountBalance (s : LedgerState) (aid : AccountId)
    (b : Int) (gid : GoalId) :
    findGoal (setAccountBalance s aid b) gid = findGoal s gid := rfl

theorem findAccount_writeGoalFields (s : LedgerState) (gid : GoalId)
    (amt : Int) (st : GoalStatus) (ic : Bool) (aid : AccountId) :
    findAccount (writeGoalFields s gid amt st ic) aid = findAccount s aid := rfl

theorem findGoal_insContribState (s : LedgerState) (c : ContributionInsert)
    (gid : GoalId) :
    findGoal (insContribState s c) gid = findGoal s gid := rfl

theorem findAccount_insContribState (s : LedgerState) (c : ContributionInsert)
    (aid : AccountId) :
    findAccount (insContribState s c) aid = findAccount s aid := rfl

theorem findGoal_delContribState (s : LedgerState) (i : RecordId)
    (gid : GoalId) :
    findGoal (delContribState s i) gid = findGoal s gid := rfl

theorem findAccount_delContribState (s : LedgerState) (i : RecordId)
    (aid : AccountId) :
    findAccount (delContribState s i) aid = findAccount s aid := rfl

/-- The success path of `useAddContribution.mutationFn`: with the source
account and the goal present and the balance sufficient, the run inserts the
row, debits the account, and writes the goal's new amount and status. -/
theorem addContribution_success_aux (s : LedgerState) (c : ContributionInsert)
    (acct : Account) (g : Goal)
    (ha : findAccount s c.account_id = some acct)
    (hg : findGoal s c.goal_id = some g)
    (hbal : c.amount ≤ acct.current_balance.getD 0) :
    addContribution s c =
      (writeGoalFields
        (setAccountBalance (insContribState s c)
          c.account_id (acct.current_balance.getD 0 - c.amount))
        c.goal_id (g.current_amount.getD 0 + c.amount)
        (if g.current_amount.getD 0 + c.amount ≥ g.target_amount
          then GoalStatus.completed else .active)
        (decide (g.current_amount.getD 0 + c.amount ≥ g.target_amount)), none) := by
  unfold addContribution addContributionF
  rw [ha]
  simp only [noFail, Bool.false_eq_true, if_false]
  rw [if_neg (not_lt.mpr hbal)]
  simp only [findGoal_setAccountBalance, findGoal_insContribState, hg,
    decide_eq_true_eq]

/-! ## C2, C10, C9, C3: the contribution paths of `useAddContribution` -/

/-- C2: a contribution whose amount exceeds the source account's
`current_balance` at check time fails with the insufficient-balance error
and performs no mutation — the returned state is exactly the input state —
under any storage-failure oracle that lets the check be reached. -/
theorem contribution_insufficient_balance_rejected
    (fail : ContribStep → Bool) (s : LedgerState) (c : ContributionInsert)
    (acct : Account)
    (hfetch : fail .fetchAccount = false)
    (ha : findAccount s c.account_id = some acct)
    (hlt : acct.current_balance.getD 0 < c.amount) :
    addContributionF fail s c = (s, some (.insufficientBalance acct.name)) := by
  unfold addContributionF
  rw [hfetch, ha]
  simp [hlt]

/-- Witness for `contribution_insufficient_balance_rejected` at a concrete
state: one account with balance 100, contribution of 150. -/
theorem contribution_insufficient_balance_rejected_witness :
    (noFail ContribStep.fetchAccount = false) ∧
    (findAccount sampleState "a1" = some acct100) ∧
    (acct100.current_balance.getD 0 < (150 : Int)) ∧
    addContributionF noFail sampleState
      { goal_id := "g1", account_id := "a1", amount := 150 }
      = (sampleState, some (.insufficientBalance "Main")) :=
  ⟨rfl, by decide, by decide,
    contribution_insufficient_balance_rejected noFail sampleState
      { goal_id := "g1", account_id := "a1", amount := 150 } acct100
      rfl (by decide) (by decide)⟩

/-- C10: a stored `current_balance` of null is read as 0
(`accountData.current_balance || 0`), so any positive-amount contribution
from such an account is rejected as insufficient with no mutation. -/
theorem null_balance_contribution_rejected
    (fail : ContribStep → Bool) (s : LedgerState) (c : ContributionInsert)
    (acct : Account)
    (hfetch : fail .fetchAccount = false)
    (ha : findAccount s c.account_id = some acct)
    (hnull : acct.current_balance = none)
    (hpos : 0 < c.amount) :
    addContributionF fail s c = (s, some (.insufficientBalance acct.name)) := by
  unfold addContributionF
  rw [hfetch, ha]
  simp [hnull, hpos]

/-- C3: a successful contribution of amount a to a goal with current amount
c and target t sets the goal's amount to c + a, its status to completed with
`is_completed = true` exactly when c + a ≥ t and to active with
`is_completed = false` otherwise, and debits the source account by exactly
a. -/
theorem contribution_success_effects (s : LedgerState) (c : ContributionInsert)
    (acct : Account) (g : Goal)
    (ha : findAccount s c.account_id = some acct)
    (hg : findGoal s c.goal_id = some g)
    (hbal : c.amount ≤ acct.current_balance.getD 0) :
    (addContribution s c).2 = none ∧
    findAccount (addContribution s c).1 c.account_id
      = some
        { acct with
          current_balance := some (acct.current_balance.getD 0 - c.amount) } ∧
    findGoal (addContribution s c).1 c.goal_id
      = some
        { g with
          current_amount := some (g.current_amount.getD 0 + c.amount),
          status :=
            if g.current_amount.getD 0 + c.amount ≥ g.target_amount then
              GoalStatus.completed
            else GoalStatus.active,
          is_completed :=
            decide (g.current_amount.getD 0 + c.amount ≥ g.target_amount) } := by
  rw [addContribution_success_aux s c acct g ha hg hbal]
  refine ⟨rfl, ?_, ?_⟩
  · rw [findAccount_writeGoalFields, findAccount_setAccountBalance_self,
      findAccount_insContribState, ha]
    rfl
  · rw [findGoal_writeGoalFields_self, findGoal_setAccountBalance,
      findGoal_insContribState, hg]
    rfl

/-- Witness for `contribution_success_effects`: the spec §8 goal-completion
scenario — target 1000, current 900, contribution 150 from an account with
balance 500 yields amount 1050, completed, and balance 350. -/
theorem contribution_success_effects_witness :
    (findAccount richState "a1" = some acct500) ∧
    (findGoal richState "g1" = some goal900) ∧
    ((150 : Int) ≤ acct500.current_balance.getD 0) ∧
    ((addContribution richState
        { goal_id := "g1", account_id := "a1", amount := 150 }).2 = none ∧
      findAccount (addContribution richState
        { goal_id := "g1", account_id := "a1", amount := 150 }).1 "a1"
        = some { acct500 with current_balance := some 350 } ∧
      findGoal (addContribution richState
        { goal_id := "g1", account_id := "a1", amount := 150 }).1 "g1"
        = some
          { goal900 with
            current_amount := some 1050,
            status := GoalStatus.completed,
            is_completed := true }) :=
  ⟨by decide, by decide, by decide,
    contribution_success_effects richState
      { goal_id := "g1", account_id := "a1", amount := 150 } acct500 goal900
      (by decide) (by decide) (by decide)⟩

/-- C9: a contribution of exactly the account's stored balance passes the
insufficient-balance check (the source rejects only when the balance is
strictly below the amount) and leaves the balance exactly 0. -/
theorem contribution_exact_balance_accepted (s : LedgerState)
    (c : ContributionInsert) (acct : Account) (g : Goal)
    (ha : findAccount s c.account_id = some acct)
    (hg : findGoal s c.goal_id = some g)
    (heq : acct.current_balance.getD 0 = c.amount) :
    (addContribution s c).2 = none ∧
    findAccount (addContribution s c).1 c.account_id
      = some { acct with current_balance := some 0 } := by
  have hbal : c.amount ≤ acct.current_balance.getD 0 := le_of_eq heq.symm
  rw [addContribution_success_aux s c acct g ha hg hbal]
  refine ⟨rfl, ?_⟩
  rw [findAccount_writeGoalFields, findAccount_setAccountBalance_self,
    findAccount_insContribState, ha]
  simp [heq]

/-- Witness for `contribution_exact_balance_accepted`: balance 100,
contribution of exactly 100. -/
theorem contribution_exact_balance_accepted_witness :
    (findAccount sampleState "a1" = some acct100) ∧
    (findGoal sampleState "g1" = some goal900) ∧
    (acct100.current_balance.getD 0 = (100 : Int)) ∧
    ((addContribution sampleState
        { goal_id := "g1", account_id := "a1", amount := 100 }).2 = none ∧
      findAccount (addContribution sampleState
        { goal_id := "g1", account_id := "a1", amount := 100 }).1 "a1"
        = some { acct100 with current_balance := some 0 }) :=
  ⟨by decide, by decide, by decide,
    contribution_exact_balance_accepted sampleState
      { goal_id := "g1", account_id := "a1", amount := 100 } acct100 goal900
      (by decide) (by decide) (by decide)⟩

/-- Witness for `null_balance_contribution_rejected`: account with null
balance, contribution of 1. -/
theorem null_balance_contribution_rejected_witness :
    (noFail ContribStep.fetchAccount = false) ∧
    (findAccount nullState "a1" = some acctNull) ∧
    (acctNull.current_balance = none) ∧ ((0 : Int) < 1) ∧
    addContributionF noFail nullState
      { goal_id := "g1", account_id := "a1", amount := 1 }
      = (nullState, some (.insufficientBalance "Main")) :=
  ⟨rfl, by decide, rfl, by decide,
    null_balance_contribution_rejected noFail nullState
      { goal_id := "g1", account_id := "a1", amount := 1 } acctNull
      rfl (by decide) rfl (by decide)⟩

end MyFinance

namespace MyFinance

/-! ## C1: the atomic-unit requirement against the sequential source -/

/-- C1 (the code violates the atomic-unit requirement): the four steps of
`useAddContribution.mutationFn` are separate storage calls with no
transaction or rollback.  On this concrete run the account-debit update
fails after the contribution insert succeeded: the operation reports a
failure, yet the inserted contribution row is observable while the account
balance and the goal are unchanged — a partial effect. -/
theorem addContribution_midfault_partial_effect :
    (addContributionF failAtDebit sampleState
      { goal_id := "g1", account_id := "a1", amount := 40 }).2
        = some OpError.storage ∧
    (addContributionF failAtDebit sampleState
      { goal_id := "g1", account_id := "a1", amount := 40 }).1.contributions
        = [{ id := 0, goal_id := "g1", account_id := some "a1", amount := 40 }] ∧
    (addContributionF failAtDebit sampleState
      { goal_id := "g1", account_id := "a1", amount := 40 }).1.accounts
        = sampleState.accounts ∧
    (addContributionF failAtDebit sampleState
      { goal_id := "g1", account_id := "a1", amount := 40 }).1.goals
        = sampleState.goals := by
  decide

/-! ## C4: `useDeleteContribution` -/

theorem removeContributionRest_eq (s1 : LedgerState)
    (r : RemoveContributionArgs) (g : Goal)
    (hg : findGoal s1 r.goalId = some g) :
    removeContributionRest s1 r =
      (writeGoalFields (delContribState s1 r.id) r.goalId
        (max 0 (g.current_amount.getD 0 - r.amount)) .active false, none) := by
  unfold removeContributionRest
  simp only [findGoal_delContribState, hg]

/-- C4: removing a contribution credits the linked account (when there is
one) by the removed amount, sets the goal's amount to
`max(0, current_amount - amount)`, and unconditionally forces the goal back
to `active` with `is_completed = false`, with no hypothesis on whether the
remaining amount still meets the target. -/
theorem remove_contribution_spec (s : LedgerState) (r : RemoveContributionArgs)
    (g : Goal)
    (hg : findGoal s r.goalId = some g)
    (ha : ∀ aid, r.accountId = some aid → (findAccount s aid).isSome = true) :
    (removeContribution s r).2 = none ∧
    (∀ aid acct, r.accountId = some aid → findAccount s aid = some acct →
      findAccount (removeContribution s r).1 aid
        = some
          { acct with
            current_balance := some (acct.current_balance.getD 0 + r.amount) }) ∧
    findGoal (removeContribution s r).1 r.goalId
      = some
        { g with
          current_amount := some (max 0 (g.current_amount.getD 0 - r.amount)),
          status := GoalStatus.active,
          is_completed := false } := by
  cases hacc : r.accountId with
  | none =>
    have hred : removeContribution s r = removeContributionRest s r := by
      unfold removeContribution
      rw [hacc]
    rw [hred, removeContributionRest_eq s r g hg]
    refine ⟨rfl, ?_, ?_⟩
    · intro aid acct haid
      cases haid
    · rw [findGoal_writeGoalFields_self, findGoal_delContribState, hg]
      rfl
  | some aid0 =>
    have hsome : (findAccount s aid0).isSome = true := ha aid0 hacc
    obtain ⟨acct0, hacct0⟩ := Option.isSome_iff_exists.mp hsome
    have hred : removeContribution s r
        = removeContributionRest (setAccountBalance s aid0
            (acct0.current_balance.getD 0 + r.amount)) r := by
      unfold removeContribution
      rw [hacc]
      dsimp only
      rw [hacct0]
    have hg1 : findGoal (setAccountBalance s aid0
        (acct0.current_balance.getD 0 + r.amount)) r.goalId = some g := hg
    rw [hred, removeContributionRest_eq _ r g hg1]
    refine ⟨rfl, ?_, ?_⟩
    · intro aid acct haid hfind
      obtain rfl : aid0 = aid := Option.some.inj haid
      obtain rfl : acct0 = acct := by
        rw [hacct0] at hfind
        exact Option.some.inj hfind
      rw [findAccount_writeGoalFields, findAccount_delContribState,
        findAccount_setAccountBalance_self, hacct0]
      rfl
    · rw [findGoal_writeGoalFields_self, findGoal_delContribState,
        findGoal_setAccountBalance, hg]
      rfl

/-- Witness for `remove_contribution_spec`: removing the stored 150
contribution from the completed goal restores the account to 500 and forces
the goal back to active at 900. -/
theorem remove_contribution_spec_witness :
    (findGoal contribState "g1" = some goal1050) ∧
    ((removeContribution contribState removeArgs0).2 = none ∧
      findAccount (removeContribution contribState removeArgs0).1 "a1"
        = some { acct350 with current_balance := some 500 } ∧
      findGoal (removeContribution contribState removeArgs0).1 "g1"
        = some
          { goal1050 with
            current_amount := some 900,
            status := GoalStatus.active,
            is_completed := false }) := by
  refine ⟨by decide, ?_⟩
  obtain ⟨h1, h2, h3⟩ := remove_contribution_spec contribState removeArgs0
    goal1050 (by decide)
    (fun aid h => by rw [← Option.some.inj h]; decide)
  exact ⟨h1, h2 "a1" acct350 rfl (by decide), h3⟩

end MyFinance

namespace MyFinance

/-! ## C7: self-transfer rejection (`transferSchema` + submission path) -/

/-- C7: a transfer creation request whose source account equals its
destination is rejected — the form never reaches `useCreateTransfer`, so no
balance is mutated — and when the base field checks pass, the reported issue
is exactly the self-transfer refinement (the spec's `InvalidTransfer`). -/
theorem transfer_self_rejected (s : LedgerState) (f : TransferForm)
    (h : f.from_account_id = f.to_account_id) :
    (submitTransfer s f).1 = s ∧ (submitTransfer s f).2 ≠ none ∧
    (transferBaseIssues f = [] →
      (submitTransfer s f).2
        = some (.validation [TransferIssue.invalidTransfer])) := by
  unfold submitTransfer transferSchemaIssues
  cases hb : transferBaseIssues f with
  | nil => simp [h]
  | cons i is => simp

/-- Witness for `transfer_self_rejected`: a well-formed form moving 10 from
account a1 to itself. -/
theorem transfer_self_rejected_witness :
    (("a1" : String) = "a1") ∧
    ((submitTransfer sampleState
        { from_account_id := "a1", to_account_id := "a1", amount := 10,
          date := "2026-01-01" }).1 = sampleState ∧
      (submitTransfer sampleState
        { from_account_id := "a1", to_account_id := "a1", amount := 10,
          date := "2026-01-01" }).2 ≠ none ∧
      (transferBaseIssues
          { from_account_id := "a1", to_account_id := "a1", amount := 10,
            date := "2026-01-01" } = [] →
        (submitTransfer sampleState
          { from_account_id := "a1", to_account_id := "a1", amount := 10,
            date := "2026-01-01" }).2
          = some (.validation [TransferIssue.invalidTransfer]))) :=
  ⟨rfl, transfer_self_rejected sampleState
    { from_account_id := "a1", to_account_id := "a1", amount := 10,
      date := "2026-01-01" } rfl⟩

/-! ## C8: the goal-state invariant across goal-writing operations -/

/-- C8 as stated fails on `useCreateGoal`: the insert passes
`status: goal.status || "active"` but never sets `is_completed`, so creating
a goal with requested status `completed` leaves `is_completed` at the column
default `false` while `status = completed`. -/
theorem create_completed_goal_violates_invariant :
    ¬ (∀ g ∈ (applyGoalWrite emptyState
        (.create "g1"
          { target_amount := 1000, current_amount := none,
            status := some .completed })).goals, goalInv g) := by
  decide

/-- Invariant propagation through the goal-fields write shared by the
contribution paths. -/
theorem goalInv_writeGoalFields (s : LedgerState) (gid : GoalId) (amt : Int)
    (st : GoalStatus) (ic : Bool)
    (hpre : ∀ g ∈ s.goals, goalInv g)
    (hco : ic = true ↔ st = GoalStatus.completed) :
    ∀ g ∈ (writeGoalFields s gid amt st ic).goals, goalInv g := by
  intro g hmem
  unfold writeGoalFields at hmem
  simp only [List.mem_map] at hmem
  obtain ⟨g0, hg0, rfl⟩ := hmem
  by_cases h : (g0.id == gid) = true
  · rw [if_pos h]
    exact hco
  · rw [if_neg h]
    exact hpre g0 hg0

end MyFinance

namespace MyFinance

theorem goalInv_addContribution (s : LedgerState) (c : ContributionInsert)
    (hpre : ∀ g ∈ s.goals, goalInv g) :
    ∀ g ∈ (addContribution s c).1.goals, goalInv g := by
  unfold addContribution addContributionF
  simp only [noFail, Bool.false_eq_true, if_false]
  split
  · exact hpre
  · split
    · exact hpre
    · split
      · exact hpre
      · rename_i acct hfa g hfg
        refine goalInv_writeGoalFields _ _ _ _ _ hpre ?_
        by_cases hc : g.current_amount.getD 0 + c.amount ≥ g.target_amount <;>
          simp [hc]

theorem goalInv_removeContribution (s : LedgerState)
    (r : RemoveContributionArgs)
    (hpre : ∀ g ∈ s.goals, goalInv g) :
    ∀ g ∈ (removeContribution s r).1.goals, goalInv g := by
  unfold removeContribution removeContributionRest
  dsimp only
  split
  · split
    · exact hpre
    · split
      · exact hpre
      · exact goalInv_writeGoalFields _ _ _ _ _ hpre (by simp)
  · split
    · exact hpre
    · exact goalInv_writeGoalFields _ _ _ _ _ hpre (by simp)

/-- C8 amended: the invariant `is_completed == (status == completed)` holds
after contribution add, contribution remove, and any goal update, and after
goal creation whenever the requested status is not `completed`; a creation
requesting status `completed` is the one goal-writing operation that breaks
it, because the insert leaves `is_completed` at its column default. -/
theorem goal_invariant_after_writes (s : LedgerState) (w : GoalWrite)
    (hpre : ∀ g ∈ s.goals, goalInv g)
    (hcreate : ∀ gid gi, w = GoalWrite.create gid gi →
      gi.status.getD .active ≠ GoalStatus.completed) :
    ∀ g ∈ (applyGoalWrite s w).goals, goalInv g := by
  cases w with
  | create gid gi =>
    intro g hmem
    unfold applyGoalWrite createGoal at hmem
    simp only [List.mem_append, List.mem_singleton] at hmem
    rcases hmem with hmem | rfl
    · exact hpre g hmem
    · have hne := hcreate gid gi rfl
      simp [goalInv, hne]
  | update gid u =>
    intro g hmem
    unfold applyGoalWrite updateGoal at hmem
    simp only [List.mem_map] at hmem
    obtain ⟨g0, hg0, rfl⟩ := hmem
    by_cases h : (g0.id == gid) = true
    · rw [if_pos h]
      cases hst : u.status with
      | none => exact hpre g0 hg0
      | some st => cases st <;> simp [goalInv]
    · rw [if_neg h]
      exact hpre g0 hg0
  | addContrib c => exact goalInv_addContribution s c hpre
  | removeContrib r => exact goalInv_removeContribution s r hpre

/-- Witness for `goal_invariant_after_writes`: a contribution add on the
sample state. -/
theorem goal_invariant_after_writes_witness :
    (∀ g ∈ sampleState.goals, goalInv g) ∧
    (∀ gid gi, GoalWrite.addContrib
        { goal_id := "g1", account_id := "a1", amount := 40 }
        = GoalWrite.create gid gi →
      gi.status.getD .active ≠ GoalStatus.completed) ∧
    (∀ g ∈ (applyGoalWrite sampleState
        (.addContrib { goal_id := "g1", account_id := "a1", amount := 40 })).goals,
      goalInv g) :=
  ⟨by decide, (fun gid gi h => by cases h),
    goal_invariant_after_writes sampleState
      (.addContrib { goal_id := "g1", account_id := "a1", amount := 40 })
      (by decide) (fun gid gi h => by cases h)⟩

end MyFinance

namespace MyFinance

/-! ## Delta-list algebra -/

theorem map_key_map_mem {α K : Type} (f : α → α) (key : α → K)
    (l : List α) (h : ∀ a ∈ l, key (f a) = key a) :
    (l.map f).map key = l.map key := by
  rw [List.map_map]
  exact List.map_congr_left (fun a ha => h a ha)

theorem applyDeltaList_eq_map (ds : List (AccountId × Int)) :
    ∀ l : List Account, applyDeltaList ds l = l.map (deltaRows ds) := by
  induction ds with
  | nil =>
    intro l
    show l = l.map (deltaRows [])
    exact (List.map_id' l).symm
  | cons p ds ih =>
    intro l
    show applyDeltaList ds (l.map (deltaRow p.1 p.2)) = l.map (deltaRows (p :: ds))
    rw [ih, List.map_map]
    rfl

theorem deltaRows_some :
    ∀ (ds : List (AccountId × Int)) (a : Account) (v : Int),
      a.current_balance = some v →
      deltaRows ds a = { a with current_balance := some (v + deltaSum ds a.id) } := by
  intro ds
  induction ds with
  | nil =>
    intro a v hv
    show a = _
    simp [deltaSum, ← hv]
  | cons p ds ih =>
    intro a v hv
    show deltaRows ds (deltaRow p.1 p.2 a) = _
    unfold deltaRow
    by_cases h : (a.id == p.1) = true
    · rw [if_pos h]
      rw [ih { a with current_balance := a.current_balance.map (fun b => b + p.2) }
        (v + p.2) (by rw [hv]; rfl)]
      have h' : p.1 = a.id := (beq_iff_eq.mp h).symm
      simp [deltaSum, h']
      ring
    · rw [if_neg h]
      rw [ih a v hv]
      have h' : p.1 ≠ a.id := fun hc =>
        h (by rw [beq_iff_eq]; exact hc.symm)
      simp [deltaSum, h']

theorem deltaRows_id (ds : List (AccountId × Int)) :
    ∀ a : Account, (deltaRows ds a).id = a.id := by
  induction ds with
  | nil => intro a; rfl
  | cons p ds ih =>
    intro a
    show (deltaRows ds (deltaRow p.1 p.2 a)).id = a.id
    rw [ih]
    unfold deltaRow
    by_cases h : (a.id == p.1) = true
    · rw [if_pos h]
    · rw [if_neg h]

theorem applyDeltaList_ids (ds : List (AccountId × Int)) (l : List Account) :
    (applyDeltaList ds l).map (fun a => a.id) = l.map (fun a => a.id) := by
  rw [applyDeltaList_eq_map]
  exact map_key_map_mem (deltaRows ds) (fun a => a.id) l
    (fun a _ => deltaRows_id ds a)

theorem applyDeltaList_cancel (ds : List (AccountId × Int)) (l : List Account)
    (hzero : ∀ a ∈ l, deltaSum ds a.id = 0)
    (hsome : ∀ a ∈ l, a.current_balance.isSome = true) :
    applyDeltaList ds l = l := by
  rw [applyDeltaList_eq_map]
  refine map_eq_self_of _ l (fun a ha => ?_)
  obtain ⟨v, hv⟩ := Option.isSome_iff_exists.mp (hsome a ha)
  rw [deltaRows_some ds a v hv, hzero a ha, add_zero, ← hv]

/-- Every account in a delta-adjusted balanced table carries its initial
balance plus its old effects plus the net delta. -/
theorem applyDeltaList_balance (ds : List (AccountId × Int))
    (l : List Account) (E : AccountId → Int)
    (h : ∀ a ∈ l, a.current_balance = some (a.initial_balance + E a.id)) :
    ∀ a ∈ applyDeltaList ds l,
      a.current_balance
        = some (a.initial_balance + (E a.id + deltaSum ds a.id)) := by
  rw [applyDeltaList_eq_map]
  intro a ha
  simp only [List.mem_map] at ha
  obtain ⟨a0, ha0, rfl⟩ := ha
  rw [deltaRows_some ds a0 (a0.initial_balance + E a0.id) (h a0 ha0)]
  simp [deltaRows_id]
  ring

end MyFinance

namespace MyFinance

/-! ## Effects of each operation on the record tables -/

theorem accountEffects_setAccountBalance (s : LedgerState) (aid : AccountId)
    (b : Int) (x : AccountId) :
    accountEffects (setAccountBalance s aid b) x = accountEffects s x := rfl

theorem accountEffects_writeGoalFields (s : LedgerState) (gid : GoalId)
    (amt : Int) (st : GoalStatus) (ic : Bool) (x : AccountId) :
    accountEffects (writeGoalFields s gid amt st ic) x = accountEffects s x := rfl

theorem accountEffects_applyAccountDelta (s : LedgerState) (aid : AccountId)
    (d : Int) (x : AccountId) :
    accountEffects (applyAccountDelta s aid d) x = accountEffects s x := rfl

/-- The absolute balance write of the contribution paths coincides with a
trigger-style delta adjustment when the written value was computed from the
fetched row (unique by primary key) and that row's stored balance is
non-null (on a null balance the JS write stores `some (0 + d)` while the
SQL arithmetic keeps null). -/
theorem setAccountBalance_as_delta (s : LedgerState) (aid : AccountId)
    (acct : Account) (d : Int)
    (hs : acct.current_balance.isSome = true)
    (hfind : findAccount s aid = some acct)
    (hnodup : (s.accounts.map (fun a => a.id)).Nodup) :
    (setAccountBalance s aid (acct.current_balance.getD 0 + d)).accounts
      = applyDeltaList [(aid, d)] s.accounts := by
  show s.accounts.map (setBalanceRow aid (acct.current_balance.getD 0 + d))
      = s.accounts.map (deltaRow aid d)
  have hfind' : s.accounts.find? (fun a => a.id == aid) = some acct := hfind
  obtain ⟨v, hv⟩ := Option.isSome_iff_exists.mp hs
  refine List.map_congr_left (fun a ha => ?_)
  unfold setBalanceRow deltaRow
  by_cases h : (a.id == aid) = true
  · rw [if_pos h, if_pos h]
    obtain rfl : a = acct :=
      eq_of_mem_find?_key (fun a : Account => a.id) aid s.accounts a acct ha
        (beq_iff_eq.mp h) hfind' hnodup
    rw [hv]
    rfl
  · rw [if_neg h, if_neg h]

theorem accountEffects_createTransaction (s : LedgerState) (aid : AccountId)
    (ty : TxType) (amount : Int) (x : AccountId) :
    accountEffects (createTransaction s aid ty amount) x
      = accountEffects s x
        + deltaSum [(aid, signedAmount (newTxRow s aid ty amount))] x := by
  unfold accountEffects createTransaction applyAccountDelta deltaSum
    txEffectOn newTxRow
  simp [List.sum_append]
  ring

theorem accountEffects_insContribState (s : LedgerState)
    (c : ContributionInsert) (x : AccountId) :
    accountEffects (insContribState s c) x
      = accountEffects s x + deltaSum [(c.account_id, -c.amount)] x := by
  unfold accountEffects insContribState contribEffectOn newContribRow deltaSum
  simp [List.sum_append, beq_iff_eq]
  ring

theorem accountEffects_createTransfer (s : LedgerState)
    (fromId toId : AccountId) (amount : Int) (x : AccountId) :
    accountEffects (createTransfer s fromId toId amount) x
      = accountEffects s x + deltaSum [(fromId, -amount), (toId, amount)] x := by
  unfold accountEffects createTransfer applyTransferEffect applyAccountDelta
    trEffectOn newTransferRow deltaSum
  simp [List.sum_append, beq_iff_eq]
  by_cases h1 : fromId = x <;> by_cases h2 : toId = x <;> simp [h1, h2] <;> ring

end MyFinance

namespace MyFinance

theorem accountEffects_updateTransaction (s : LedgerState) (i : RecordId)
    (u : TransactionUpdateArgs) (old : Transaction)
    (hfind : s.transactions.find? (fun t => t.id == i) = some old)
    (hnd : (s.transactions.map (fun t => t.id)).Nodup) (x : AccountId) :
    accountEffects (updateTransaction s i u) x
      = accountEffects s x
        + deltaSum [(old.account_id, - signedAmount old),
            ((mergedTxRow old i u).account_id,
             signedAmount (mergedTxRow old i u))] x := by
  unfold updateTransaction
  rw [hfind]
  dsimp only
  rw [accountEffects_applyAccountDelta, accountEffects_applyAccountDelta]
  unfold accountEffects
  dsimp only
  rw [sum_map_replace (fun t => t.id) (txEffectOn x) i (mergedTxRow old i u)
    s.transactions old hfind hnd]
  unfold deltaSum txEffectOn
  simp [beq_iff_eq]
  by_cases h1 : old.account_id = x <;>
    by_cases h2 : (mergedTxRow old i u).account_id = x <;>
    simp [h1, h2] <;> ring

theorem accountEffects_deleteTransaction (s : LedgerState) (i : RecordId)
    (old : Transaction)
    (hfind : s.transactions.find? (fun t => t.id == i) = some old)
    (hnd : (s.transactions.map (fun t => t.id)).Nodup) (x : AccountId) :
    accountEffects (deleteTransaction s i) x
      = accountEffects s x + deltaSum [(old.account_id, - signedAmount old)] x := by
  unfold deleteTransaction
  rw [hfind]
  dsimp only
  rw [accountEffects_applyAccountDelta]
  unfold accountEffects
  dsimp only
  rw [sum_map_filter_ne (fun t => t.id) (txEffectOn x) i s.transactions old
    hfind hnd]
  unfold deltaSum txEffectOn
  simp [beq_iff_eq]
  by_cases h : old.account_id = x <;> simp [h] <;> ring

theorem accountEffects_updateTransfer (s : LedgerState) (i : RecordId)
    (u : TransferUpdateArgs) (old : Transfer)
    (hfind : s.transfers.find? (fun t => t.id == i) = some old)
    (hnd : (s.transfers.map (fun t => t.id)).Nodup) (x : AccountId) :
    accountEffects (updateTransfer s i u) x
      = accountEffects s x
        + deltaSum [(old.from_account_id, old.amount),
            (old.to_account_id, - old.amount),
            ((mergedTransferRow old i u).from_account_id,
             - (mergedTransferRow old i u).amount),
            ((mergedTransferRow old i u).to_account_id,
             (mergedTransferRow old i u).amount)] x := by
  unfold updateTransfer
  rw [hfind]
  dsimp only
  unfold applyTransferEffect reverseTransferEffect
  rw [accountEffects_applyAccountDelta, accountEffects_applyAccountDelta,
    accountEffects_applyAccountDelta, accountEffects_applyAccountDelta]
  unfold accountEffects
  dsimp only
  rw [sum_map_replace (fun t => t.id) (trEffectOn x) i (mergedTransferRow old i u)
    s.transfers old hfind hnd]
  unfold deltaSum trEffectOn
  simp [beq_iff_eq]
  by_cases h1 : old.from_account_id = x <;>
    by_cases h2 : old.to_account_id = x <;>
    by_cases h3 : (mergedTransferRow old i u).from_account_id = x <;>
    by_cases h4 : (mergedTransferRow old i u).to_account_id = x <;>
    simp [h1, h2, h3, h4] <;> ring

theorem accountEffects_deleteTransfer (s : LedgerState) (i : RecordId)
    (old : Transfer)
    (hfind : s.transfers.find? (fun t => t.id == i) = some old)
    (hnd : (s.transfers.map (fun t => t.id)).Nodup) (x : AccountId) :
    accountEffects (deleteTransfer s i) x
      = accountEffects s x
        + deltaSum [(old.from_account_id, old.amount),
            (old.to_account_id, - old.amount)] x := by
  unfold deleteTransfer
  rw [hfind]
  dsimp only
  unfold reverseTransferEffect
  rw [accountEffects_applyAccountDelta, accountEffects_applyAccountDelta]
  unfold accountEffects
  dsimp only
  rw [sum_map_filter_ne (fun t => t.id) (trEffectOn x) i s.transfers old
    hfind hnd]
  unfold deltaSum trEffectOn
  simp [beq_iff_eq]
  by_cases h1 : old.from_account_id = x <;>
    by_cases h2 : old.to_account_id = x <;>
    simp [h1, h2] <;> ring

theorem accountEffects_delContribState (s : LedgerState) (i : RecordId)
    (row : GoalContribution)
    (hfind : s.contributions.find? (fun c => c.id == i) = some row)
    (hnd : (s.contributions.map (fun c => c.id)).Nodup) (x : AccountId) :
    accountEffects (delContribState s i) x
      = accountEffects s x - contribEffectOn x row := by
  unfold accountEffects delContribState
  dsimp only
  rw [sum_map_filter_ne (fun c => c.id) (contribEffectOn x) i s.contributions
    row hfind hnd]
  ring

end MyFinance

namespace MyFinance

/-! ## Accounts tables of each operation as delta lists -/

theorem accounts_createTransaction (s : LedgerState) (aid : AccountId)
    (ty : TxType) (amount : Int) :
    (createTransaction s aid ty amount).accounts
      = applyDeltaList [(aid, signedAmount (newTxRow s aid ty amount))]
          s.accounts := rfl

theorem accounts_createTransfer (s : LedgerState) (fromId toId : AccountId)
    (amount : Int) :
    (createTransfer s fromId toId amount).accounts
      = applyDeltaList [(fromId, -amount), (toId, amount)] s.accounts := rfl

theorem accounts_updateTransaction (s : LedgerState) (i : RecordId)
    (u : TransactionUpdateArgs) (old : Transaction)
    (hfind : s.transactions.find? (fun t => t.id == i) = some old) :
    (updateTransaction s i u).accounts
      = applyDeltaList [(old.account_id, - signedAmount old),
          ((mergedTxRow old i u).account_id,
           signedAmount (mergedTxRow old i u))] s.accounts := by
  unfold updateTransaction
  rw [hfind]
  rfl

theorem accounts_deleteTransaction (s : LedgerState) (i : RecordId)
    (old : Transaction)
    (hfind : s.transactions.find? (fun t => t.id == i) = some old) :
    (deleteTransaction s i).accounts
      = applyDeltaList [(old.account_id, - signedAmount old)] s.accounts := by
  unfold deleteTransaction
  rw [hfind]
  rfl

theorem accounts_updateTransfer (s : LedgerState) (i : RecordId)
    (u : TransferUpdateArgs) (old : Transfer)
    (hfind : s.transfers.find? (fun t => t.id == i) = some old) :
    (updateTransfer s i u).accounts
      = applyDeltaList [(old.from_account_id, old.amount),
          (old.to_account_id, - old.amount),
          ((mergedTransferRow old i u).from_account_id,
           - (mergedTransferRow old i u).amount),
          ((mergedTransferRow old i u).to_account_id,
           (mergedTransferRow old i u).amount)] s.accounts := by
  unfold updateTransfer
  rw [hfind]
  rfl

theorem accounts_deleteTransfer (s : LedgerState) (i : RecordId)
    (old : Transfer)
    (hfind : s.transfers.find? (fun t => t.id == i) = some old) :
    (deleteTransfer s i).accounts
      = applyDeltaList [(old.from_account_id, old.amount),
          (old.to_account_id, - old.amount)] s.accounts := by
  unfold deleteTransfer
  rw [hfind]
  rfl

end MyFinance

namespace MyFinance

/-- The spec §3 / §8 balance invariant is preserved by every operation of
spec §6.  The wf hypothesis carries the primary-key facts (unique, generated
below the id counter) that the database guarantees. -/
theorem balanced_applyOp (s : LedgerState) (op : LedgerOp)
    (hwf : wf s) (hb : balanced s) : balanced (applyOp s op) := by
  obtain ⟨htxb, htxn, htrb, htrn, hcb, hcn, han⟩ := hwf
  cases op with
  | createTx aid ty amount =>
    show balanced (createTransaction s aid ty amount)
    intro a ha
    rw [accounts_createTransaction] at ha
    rw [accountEffects_createTransaction]
    exact applyDeltaList_balance _ s.accounts (accountEffects s) hb a ha
  | updateTx i u =>
    show balanced (updateTransaction s i u)
    cases hfind : s.transactions.find? (fun t => t.id == i) with
    | none =>
      have hid : updateTransaction s i u = s := by
        unfold updateTransaction
        rw [hfind]
      rw [hid]
      exact hb
    | some old =>
      intro a ha
      rw [accounts_updateTransaction s i u old hfind] at ha
      rw [accountEffects_updateTransaction s i u old hfind htxn]
      exact applyDeltaList_balance _ s.accounts (accountEffects s) hb a ha
  | deleteTx i =>
    show balanced (deleteTransaction s i)
    cases hfind : s.transactions.find? (fun t => t.id == i) with
    | none =>
      have hid : deleteTransaction s i = s := by
        unfold deleteTransaction
        rw [hfind]
      rw [hid]
      exact hb
    | some old =>
      intro a ha
      rw [accounts_deleteTransaction s i old hfind] at ha
      rw [accountEffects_deleteTransaction s i old hfind htxn]
      exact applyDeltaList_balance _ s.accounts (accountEffects s) hb a ha
  | createTr fromId toId amount =>
    show balanced (createTransfer s fromId toId amount)
    intro a ha
    rw [accounts_createTransfer] at ha
    rw [accountEffects_createTransfer]
    exact applyDeltaList_balance _ s.accounts (accountEffects s) hb a ha
  | updateTr i u =>
    show balanced (updateTransfer s i u)
    cases hfind : s.transfers.find? (fun t => t.id == i) with
    | none =>
      have hid : updateTransfer s i u = s := by
        unfold updateTransfer
        rw [hfind]
      rw [hid]
      exact hb
    | some old =>
      intro a ha
      rw [accounts_updateTransfer s i u old hfind] at ha
      rw [accountEffects_updateTransfer s i u old hfind htrn]
      exact applyDeltaList_balance _ s.accounts (accountEffects s) hb a ha
  | deleteTr i =>
    show balanced (deleteTransfer s i)
    cases hfind : s.transfers.find? (fun t => t.id == i) with
    | none =>
      have hid : deleteTransfer s i = s := by
        unfold deleteTransfer
        rw [hfind]
      rw [hid]
      exact hb
    | some old =>
      intro a ha
      rw [accounts_deleteTransfer s i old hfind] at ha
      rw [accountEffects_deleteTransfer s i old hfind htrn]
      exact applyDeltaList_balance _ s.accounts (accountEffects s) hb a ha
  | addContrib c =>
    show balanced (addContribution s c).1
    unfold addContribution addContributionF
    simp only [noFail, Bool.false_eq_true, if_false]
    split
    · exact hb
    · rename_i acct hfa
      split
      · exact hb
      · rename_i hlt
        have hsa : acct.current_balance.isSome = true := by
          rw [hb acct (List.mem_of_find?_eq_some hfa)]
          rfl
        have haccs : (setAccountBalance (insContribState s c) c.account_id
            (acct.current_balance.getD 0 - c.amount)).accounts
            = applyDeltaList [(c.account_id, -c.amount)] s.accounts := by
          rw [sub_eq_add_neg]
          exact setAccountBalance_as_delta (insContribState s c) c.account_id
            acct (-c.amount) hsa hfa han
        have hbal2 : balanced (setAccountBalance (insContribState s c)
            c.account_id (acct.current_balance.getD 0 - c.amount)) := by
          intro a ha
          rw [haccs] at ha
          rw [accountEffects_setAccountBalance, accountEffects_insContribState]
          exact applyDeltaList_balance _ s.accounts (accountEffects s) hb a ha
        split
        · exact hbal2
        · intro a ha
          rw [accountEffects_writeGoalFields]
          exact hbal2 a ha
  | removeContrib i =>
    show balanced (match s.contributions.find? (fun c => c.id == i) with
      | none => s
      | some c => (removeContribution s
          { id := i, goalId := c.goal_id, amount := c.amount,
            accountId := c.account_id }).1)
    cases hfind : s.contributions.find? (fun c => c.id == i) with
    | none => exact hb
    | some row =>
      dsimp only
      unfold removeContribution
      dsimp only
      cases hacc : row.account_id with
      | none =>
        dsimp only
        have hbal2 : balanced (delContribState s i) := by
          intro a ha
          rw [accountEffects_delContribState s i row hfind hcn]
          have hc0 : contribEffectOn a.id row = 0 := by
            simp [contribEffectOn, hacc]
          rw [hc0, sub_zero]
          exact hb a ha
        unfold removeContributionRest
        dsimp only
        split
        · exact hbal2
        · intro a ha
          rw [accountEffects_writeGoalFields]
          exact hbal2 a ha
      | some aid0 =>
        dsimp only
        cases hacct : findAccount s aid0 with
        | none => exact hb
        | some acct =>
          dsimp only
          have heffsub : ∀ x, accountEffects s x - contribEffectOn x row
              = accountEffects s x + deltaSum [(aid0, row.amount)] x := by
            intro x
            simp [contribEffectOn, hacc, deltaSum, beq_iff_eq]
            by_cases h : aid0 = x <;> simp [h] <;> ring
          have hsa : acct.current_balance.isSome = true := by
            rw [hb acct (List.mem_of_find?_eq_some hacct)]
            rfl
          have haccs : (setAccountBalance s aid0
              (acct.current_balance.getD 0 + row.amount)).accounts
              = applyDeltaList [(aid0, row.amount)] s.accounts :=
            setAccountBalance_as_delta s aid0 acct row.amount hsa hacct han
          have hbal2 : balanced (delContribState (setAccountBalance s aid0
              (acct.current_balance.getD 0 + row.amount)) i) := by
            intro a ha
            rw [accountEffects_delContribState (setAccountBalance s aid0
                (acct.current_balance.getD 0 + row.amount)) i row hfind hcn,
              accountEffects_setAccountBalance, heffsub]
            have ha' : a ∈ applyDeltaList [(aid0, row.amount)] s.accounts := by
              rw [← haccs]
              exact ha
            exact applyDeltaList_balance _ s.accounts (accountEffects s) hb a ha'
          unfold removeContributionRest
          dsimp only
          split
          · exact hbal2
          · intro a ha
            rw [accountEffects_writeGoalFields]
            exact hbal2 a ha

end MyFinance

namespace MyFinance

/-! ## Well-formedness is preserved by every operation -/

theorem ids_bound_append {α : Type} (key : α → Nat) (l : List α) (b : α)
    (n : Nat) (hb : key b < n + 1) (hlt : ∀ x ∈ l, key x < n) :
    ∀ x ∈ l ++ [b], key x < n + 1 := by
  intro x hx
  rcases List.mem_append.mp hx with hx | hx
  · exact Nat.lt_succ_of_lt (hlt x hx)
  · rw [List.mem_singleton.mp hx]
    exact hb

theorem nodup_ids_append_fresh {α : Type} (key : α → Nat) (l : List α) (b : α)
    (n : Nat) (hb : key b = n) (hlt : ∀ x ∈ l, key x < n)
    (hnd : (l.map key).Nodup) : ((l ++ [b]).map key).Nodup := by
  rw [List.map_append]
  refine List.Nodup.append hnd (by simp) ?_
  intro x hx hmem
  simp only [List.map_cons, List.map_nil, List.mem_singleton] at hmem
  simp only [List.mem_map] at hx
  obtain ⟨a, ha, rfl⟩ := hx
  have h1 : key a < n := hlt a ha
  rw [hmem, hb] at h1
  exact Nat.lt_irrefl n h1

theorem ids_bound_replace {α : Type} (key : α → Nat) (i : Nat) (b : α)
    (l : List α) (n : Nat) (hb : ∀ x ∈ l, key x < n) (hkb : key b = i)
    (hi : i < n) :
    ∀ x ∈ l.map (fun x => if key x == i then b else x), key x < n := by
  intro x hx
  simp only [List.mem_map] at hx
  obtain ⟨a, ha, rfl⟩ := hx
  by_cases h : (key a == i) = true
  · rw [if_pos h, hkb]
    exact hi
  · rw [if_neg h]
    exact hb a ha

theorem ids_map_replace {α : Type} (key : α → Nat) (i : Nat) (b : α)
    (hkb : key b = i) (l : List α) :
    (l.map (fun x => if key x == i then b else x)).map key = l.map key := by
  rw [List.map_map]
  refine List.map_congr_left (fun a ha => ?_)
  by_cases h : (key a == i) = true
  · show key (if (key a == i) = true then b else a) = key a
    rw [if_pos h, hkb]
    exact (beq_iff_eq.mp h).symm
  · show key (if (key a == i) = true then b else a) = key a
    rw [if_neg h]

theorem ids_bound_filter {α : Type} (key : α → Nat) (p : α → Bool)
    (l : List α) (n : Nat) (hb : ∀ x ∈ l, key x < n) :
    ∀ x ∈ l.filter p, key x < n :=
  fun x hx => hb x (List.mem_of_mem_filter hx)

theorem ids_nodup_filter {α : Type} (key : α → Nat) (p : α → Bool)
    (l : List α) (hnd : (l.map key).Nodup) :
    ((l.filter p).map key).Nodup :=
  List.Nodup.sublist (List.Sublist.map key (List.filter_sublist l)) hnd

theorem accounts_ids_map (f : Account → Account)
    (hf : ∀ a, (f a).id = a.id) (l : List Account)
    (hnd : (l.map (fun a => a.id)).Nodup) :
    ((l.map f).map (fun a => a.id)).Nodup := by
  rw [map_key_map_mem f (fun a => a.id) l (fun a _ => hf a)]
  exact hnd

theorem setBalanceRow_id (aid : AccountId) (b : Int) (a : Account) :
    (setBalanceRow aid b a).id = a.id := by
  unfold setBalanceRow
  by_cases h : (a.id == aid) = true
  · rw [if_pos h]
  · rw [if_neg h]

theorem deltaRow_id (aid : AccountId) (d : Int) (a : Account) :
    (deltaRow aid d a).id = a.id := by
  unfold deltaRow
  by_cases h : (a.id == aid) = true
  · rw [if_pos h]
  · rw [if_neg h]

end MyFinance

namespace MyFinance

theorem wf_setAccountBalance (s : LedgerState) (aid : AccountId) (b : Int)
    (h : wf s) : wf (setAccountBalance s aid b) := by
  obtain ⟨h1, h2, h3, h4, h5, h6, h7⟩ := h
  exact ⟨h1, h2, h3, h4, h5, h6,
    accounts_ids_map (setBalanceRow aid b) (setBalanceRow_id aid b)
      s.accounts h7⟩

theorem wf_applyAccountDelta (s : LedgerState) (aid : AccountId) (d : Int)
    (h : wf s) : wf (applyAccountDelta s aid d) := by
  obtain ⟨h1, h2, h3, h4, h5, h6, h7⟩ := h
  exact ⟨h1, h2, h3, h4, h5, h6,
    accounts_ids_map (deltaRow aid d) (deltaRow_id aid d) s.accounts h7⟩

theorem wf_writeGoalFields (s : LedgerState) (gid : GoalId) (amt : Int)
    (st : GoalStatus) (ic : Bool) (h : wf s) :
    wf (writeGoalFields s gid amt st ic) := h

theorem wf_insContribState (s : LedgerState) (c : ContributionInsert)
    (h : wf s) : wf (insContribState s c) := by
  obtain ⟨h1, h2, h3, h4, h5, h6, h7⟩ := h
  refine ⟨fun t ht => Nat.lt_succ_of_lt (h1 t ht), h2,
    fun t ht => Nat.lt_succ_of_lt (h3 t ht), h4, ?_, ?_, h7⟩
  · exact ids_bound_append (fun c => c.id) s.contributions (newContribRow s c)
      s.nextId (Nat.lt_succ_self _) h5
  · exact nodup_ids_append_fresh (fun c => c.id) s.contributions
      (newContribRow s c) s.nextId rfl h5 h6

theorem wf_delContribState (s : LedgerState) (i : RecordId) (h : wf s) :
    wf (delContribState s i) := by
  obtain ⟨h1, h2, h3, h4, h5, h6, h7⟩ := h
  exact ⟨h1, h2, h3, h4,
    ids_bound_filter (fun c : GoalContribution => c.id)
      (fun c : GoalContribution => c.id != i) s.contributions s.nextId h5,
    ids_nodup_filter (fun c : GoalContribution => c.id)
      (fun c : GoalContribution => c.id != i) s.contributions h6,
    h7⟩

theorem wf_createTransaction (s : LedgerState) (aid : AccountId) (ty : TxType)
    (amount : Int) (h : wf s) : wf (createTransaction s aid ty amount) := by
  obtain ⟨h1, h2, h3, h4, h5, h6, h7⟩ := h
  refine ⟨?_, ?_, fun t ht => Nat.lt_succ_of_lt (h3 t ht), h4,
    fun c hc => Nat.lt_succ_of_lt (h5 c hc), h6,
    accounts_ids_map _ (deltaRow_id _ _) s.accounts h7⟩
  · exact ids_bound_append (fun t => t.id) s.transactions
      (newTxRow s aid ty amount) s.nextId (Nat.lt_succ_self _) h1
  · exact nodup_ids_append_fresh (fun t => t.id) s.transactions
      (newTxRow s aid ty amount) s.nextId rfl h1 h2

theorem wf_createTransfer (s : LedgerState) (fromId toId : AccountId)
    (amount : Int) (h : wf s) : wf (createTransfer s fromId toId amount) := by
  obtain ⟨h1, h2, h3, h4, h5, h6, h7⟩ := h
  refine ⟨fun t ht => Nat.lt_succ_of_lt (h1 t ht), h2, ?_, ?_,
    fun c hc => Nat.lt_succ_of_lt (h5 c hc), h6, ?_⟩
  · exact ids_bound_append (fun t => t.id) s.transfers
      (newTransferRow s fromId toId amount) s.nextId (Nat.lt_succ_self _) h3
  · exact nodup_ids_append_fresh (fun t => t.id) s.transfers
      (newTransferRow s fromId toId amount) s.nextId rfl h3 h4
  · exact accounts_ids_map (deltaRow toId amount) (deltaRow_id toId amount) _
      (accounts_ids_map (deltaRow fromId (-amount))
        (deltaRow_id fromId (-amount)) s.accounts h7)

end MyFinance

namespace MyFinance

theorem wf_updateTransaction (s : LedgerState) (i : RecordId)
    (u : TransactionUpdateArgs) (h : wf s) : wf (updateTransaction s i u) := by
  cases hfind : s.transactions.find? (fun t => t.id == i) with
  | none =>
    have hid : updateTransaction s i u = s := by
      unfold updateTransaction
      rw [hfind]
    rw [hid]
    exact h
  | some old =>
    obtain ⟨h1, h2, h3, h4, h5, h6, h7⟩ := h
    have hoi : old.id = i :=
      beq_iff_eq.mp (List.find?_some (p := fun t : Transaction => t.id == i) hfind)
    have hin : i < s.nextId := hoi ▸ h1 old (List.mem_of_find?_eq_some hfind)
    have hred : updateTransaction s i u
        = applyAccountDelta (applyAccountDelta
            { s with transactions := s.transactions.map (fun t =>
                if t.id == i then mergedTxRow old i u else t) }
            old.account_id (- signedAmount old))
            (mergedTxRow old i u).account_id
            (signedAmount (mergedTxRow old i u)) := by
      unfold updateTransaction
      rw [hfind]
    rw [hred]
    refine ⟨?_, ?_, h3, h4, h5, h6, ?_⟩
    · exact ids_bound_replace (fun t : Transaction => t.id) i
        (mergedTxRow old i u) s.transactions s.nextId h1 rfl hin
    · show ((s.transactions.map (fun t =>
          if t.id == i then mergedTxRow old i u else t)).map
            (fun t => t.id)).Nodup
      rw [ids_map_replace (fun t : Transaction => t.id) i (mergedTxRow old i u)
        rfl s.transactions]
      exact h2
    · exact accounts_ids_map (deltaRow _ _) (deltaRow_id _ _) _
        (accounts_ids_map (deltaRow _ _) (deltaRow_id _ _) s.accounts h7)

theorem wf_deleteTransaction (s : LedgerState) (i : RecordId) (h : wf s) :
    wf (deleteTransaction s i) := by
  cases hfind : s.transactions.find? (fun t => t.id == i) with
  | none =>
    have hid : deleteTransaction s i = s := by
      unfold deleteTransaction
      rw [hfind]
    rw [hid]
    exact h
  | some old =>
    obtain ⟨h1, h2, h3, h4, h5, h6, h7⟩ := h
    have hred : deleteTransaction s i
        = applyAccountDelta
            { s with transactions := s.transactions.filter (fun t => t.id != i) }
            old.account_id (- signedAmount old) := by
      unfold deleteTransaction
      rw [hfind]
    rw [hred]
    exact ⟨ids_bound_filter (fun t : Transaction => t.id)
        (fun t : Transaction => t.id != i) s.transactions s.nextId h1,
      ids_nodup_filter (fun t : Transaction => t.id)
        (fun t : Transaction => t.id != i) s.transactions h2,
      h3, h4, h5, h6,
      accounts_ids_map (deltaRow _ _) (deltaRow_id _ _) s.accounts h7⟩

theorem wf_updateTransfer (s : LedgerState) (i : RecordId)
    (u : TransferUpdateArgs) (h : wf s) : wf (updateTransfer s i u) := by
  cases hfind : s.transfers.find? (fun t => t.id == i) with
  | none =>
    have hid : updateTransfer s i u = s := by
      unfold updateTransfer
      rw [hfind]
    rw [hid]
    exact h
  | some old =>
    obtain ⟨h1, h2, h3, h4, h5, h6, h7⟩ := h
    have hoi : old.id = i :=
      beq_iff_eq.mp (List.find?_some (p := fun t : Transfer => t.id == i) hfind)
    have hin : i < s.nextId := hoi ▸ h3 old (List.mem_of_find?_eq_some hfind)
    have hred : updateTransfer s i u
        = applyTransferEffect (reverseTransferEffect
            { s with transfers := s.transfers.map (fun t =>
                if t.id == i then mergedTransferRow old i u else t) }
            old) (mergedTransferRow old i u) := by
      unfold updateTransfer
      rw [hfind]
    rw [hred]
    unfold applyTransferEffect reverseTransferEffect
    refine ⟨h1, h2, ?_, ?_, h5, h6, ?_⟩
    · exact ids_bound_replace (fun t : Transfer => t.id) i
        (mergedTransferRow old i u) s.transfers s.nextId h3 rfl hin
    · show ((s.transfers.map (fun t =>
          if t.id == i then mergedTransferRow old i u else t)).map
            (fun t => t.id)).Nodup
      rw [ids_map_replace (fun t : Transfer => t.id) i (mergedTransferRow old i u)
        rfl s.transfers]
      exact h4
    · exact accounts_ids_map (deltaRow _ _) (deltaRow_id _ _) _
        (accounts_ids_map (deltaRow _ _) (deltaRow_id _ _) _
          (accounts_ids_map (deltaRow _ _) (deltaRow_id _ _) _
            (accounts_ids_map (deltaRow _ _) (deltaRow_id _ _) s.accounts h7)))

theorem wf_deleteTransfer (s : LedgerState) (i : RecordId) (h : wf s) :
    wf (deleteTransfer s i) := by
  cases hfind : s.transfers.find? (fun t => t.id == i) with
  | none =>
    have hid : deleteTransfer s i = s := by
      unfold deleteTransfer
      rw [hfind]
    rw [hid]
    exact h
  | some old =>
    obtain ⟨h1, h2, h3, h4, h5, h6, h7⟩ := h
    have hred : deleteTransfer s i
        = reverseTransferEffect
            { s with transfers := s.transfers.filter (fun t => t.id != i) }
            old := by
      unfold deleteTransfer
      rw [hfind]
    rw [hred]
    unfold reverseTransferEffect
    exact ⟨h1, h2,
      ids_bound_filter (fun t : Transfer => t.id)
        (fun t : Transfer => t.id != i) s.transfers s.nextId h3,
      ids_nodup_filter (fun t : Transfer => t.id)
        (fun t : Transfer => t.id != i) s.transfers h4,
      h5, h6,
      accounts_ids_map (deltaRow _ _) (deltaRow_id _ _) _
        (accounts_ids_map (deltaRow _ _) (deltaRow_id _ _) s.accounts h7)⟩

theorem wf_addContribution (s : LedgerState) (c : ContributionInsert)
    (h : wf s) : wf (addContribution s c).1 := by
  unfold addContribution addContributionF
  simp only [noFail, Bool.false_eq_true, if_false]
  split
  · exact h
  · split
    · exact h
    · split
      · exact wf_setAccountBalance _ _ _ (wf_insContribState s c h)
      · exact wf_writeGoalFields _ _ _ _ _
          (wf_setAccountBalance _ _ _ (wf_insContribState s c h))

theorem wf_removeContribution (s : LedgerState) (r : RemoveContributionArgs)
    (h : wf s) : wf (removeContribution s r).1 := by
  unfold removeContribution removeContributionRest
  dsimp only
  split
  · split
    · exact h
    · split
      · exact wf_delContribState _ _ (wf_setAccountBalance _ _ _ h)
      · exact wf_writeGoalFields _ _ _ _ _
          (wf_delContribState _ _ (wf_setAccountBalance _ _ _ h))
  · split
    · exact wf_delContribState _ _ h
    · exact wf_writeGoalFields _ _ _ _ _ (wf_delContribState _ _ h)

theorem wf_applyOp (s : LedgerState) (op : LedgerOp) (h : wf s) :
    wf (applyOp s op) := by
  cases op with
  | createTx aid ty amount => exact wf_createTransaction s aid ty amount h
  | updateTx i u => exact wf_updateTransaction s i u h
  | deleteTx i => exact wf_deleteTransaction s i h
  | createTr fromId toId amount => exact wf_createTransfer s fromId toId amount h
  | updateTr i u => exact wf_updateTransfer s i u h
  | deleteTr i => exact wf_deleteTransfer s i h
  | addContrib c => exact wf_addContribution s c h
  | removeContrib i =>
    show wf (match s.contributions.find? (fun c => c.id == i) with
      | none => s
      | some c => (removeContribution s
          { id := i, goalId := c.goal_id, amount := c.amount,
            accountId := c.account_id }).1)
    cases hfind : s.contributions.find? (fun c => c.id == i) with
    | none => exact h
    | some row => exact wf_removeContribution s _ h

end MyFinance

namespace MyFinance

/-- C5: over every sequence of transaction create/update/delete, transfer
create/update/delete, and goal-contribution add/remove operations, every
account's `current_balance` equals its `initial_balance` plus the sum of the
signed effects of all still-live transactions, transfers and goal
contributions referencing it (spec §3 invariant), starting from any
well-formed balanced state. -/
theorem balance_invariant_sequences (s : LedgerState) (ops : List LedgerOp)
    (hwf : wf s) (hb : balanced s) :
    balanced (List.foldl applyOp s ops) := by
  induction ops generalizing s with
  | nil => exact hb
  | cons op ops ih =>
    exact ih (applyOp s op) (wf_applyOp s op hwf) (balanced_applyOp s op hwf hb)

/-- Witness for `balance_invariant_sequences`: a five-operation sequence
(income transaction, goal contribution, self-transfer, transaction delete,
contribution remove) on the sample state. -/
theorem balance_invariant_sequences_witness :
    wf sampleState ∧ balanced sampleState ∧
    balanced (List.foldl applyOp sampleState
      [LedgerOp.createTx "a1" TxType.income 50,
       LedgerOp.addContrib { goal_id := "g1", account_id := "a1", amount := 30 },
       LedgerOp.createTr "a1" "a1" 10,
       LedgerOp.deleteTx 0,
       LedgerOp.removeContrib 1]) :=
  ⟨by decide, by decide,
    balance_invariant_sequences sampleState
      [LedgerOp.createTx "a1" TxType.income 50,
       LedgerOp.addContrib { goal_id := "g1", account_id := "a1", amount := 30 },
       LedgerOp.createTr "a1" "a1" 10,
       LedgerOp.deleteTx 0,
       LedgerOp.removeContrib 1] (by decide) (by decide)⟩

end MyFinance


namespace MyFinance

/-! ## C6: apply-then-reverse restores balances -/

theorem applyDeltaList_append (ds1 ds2 : List (AccountId × Int))
    (l : List Account) :
    applyDeltaList (ds1 ++ ds2) l = applyDeltaList ds2 (applyDeltaList ds1 l) :=
  List.foldl_append _ _ _ _

theorem accounts_removeContributionRest (s1 : LedgerState)
    (r : RemoveContributionArgs) :
    (removeContributionRest s1 r).1.accounts = s1.accounts := by
  unfold removeContributionRest
  dsimp only
  split
  · rfl
  · rfl

/-- Removing a just-inserted contribution restores the accounts table,
whatever goal fields the preceding add wrote. -/
theorem contribution_roundtrip_accounts (s : LedgerState)
    (c : ContributionInsert) (acct : Account) (gid : GoalId) (A : Int)
    (S : GoalStatus) (I : Bool)
    (hfa : findAccount s c.account_id = some acct)
    (han : (s.accounts.map (fun a => a.id)).Nodup)
    (hsome : ∀ a ∈ s.accounts, a.current_balance.isSome = true) :
    ((removeContribution
        (writeGoalFields (setAccountBalance (insContribState s c) c.account_id
          (acct.current_balance.getD 0 - c.amount)) gid A S I)
        { id := s.nextId, goalId := c.goal_id, amount := c.amount,
          accountId := some c.account_id }).1).accounts = s.accounts := by
  have hfa2 : findAccount (writeGoalFields (setAccountBalance
      (insContribState s c) c.account_id
      (acct.current_balance.getD 0 - c.amount)) gid A S I) c.account_id
      = some
        { acct with
          current_balance := some (acct.current_balance.getD 0 - c.amount) } := by
    rw [findAccount_writeGoalFields, findAccount_setAccountBalance_self,
      findAccount_insContribState, hfa]
    rfl
  have haccs1 : (setAccountBalance (insContribState s c) c.account_id
      (acct.current_balance.getD 0 - c.amount)).accounts
      = applyDeltaList [(c.account_id, -c.amount)] s.accounts := by
    rw [sub_eq_add_neg]
    exact setAccountBalance_as_delta (insContribState s c) c.account_id
      acct (-c.amount) (hsome acct (List.mem_of_find?_eq_some hfa)) hfa han
  have hnd2 : ((writeGoalFields (setAccountBalance (insContribState s c)
      c.account_id (acct.current_balance.getD 0 - c.amount)) gid A S I).accounts.map
        (fun a => a.id)).Nodup := by
    show ((setAccountBalance (insContribState s c) c.account_id
      (acct.current_balance.getD 0 - c.amount)).accounts.map
        (fun a => a.id)).Nodup
    rw [haccs1, applyDeltaList_ids]
    exact han
  unfold removeContribution
  dsimp only
  rw [hfa2]
  dsimp only
  rw [accounts_removeContributionRest]
  have haccs2 := setAccountBalance_as_delta
    (writeGoalFields (setAccountBalance (insContribState s c) c.account_id
      (acct.current_balance.getD 0 - c.amount)) gid A S I)
    c.account_id
    { acct with
      current_balance := some (acct.current_balance.getD 0 - c.amount) }
    c.amount rfl hfa2 hnd2
  rw [haccs2]
  rw [show (writeGoalFields (setAccountBalance (insContribState s c)
      c.account_id (acct.current_balance.getD 0 - c.amount)) gid A S I).accounts
      = applyDeltaList [(c.account_id, -c.amount)] s.accounts from haccs1]
  rw [← applyDeltaList_append]
  refine applyDeltaList_cancel _ s.accounts (fun a _ => ?_) hsome
  unfold deltaSum
  by_cases h : c.account_id = a.id <;> simp [h] <;> ring_nf

/-- C6: applying a single event — a transaction, a transfer, or an accepted
goal contribution — and then immediately reversing it by deleting the record
it created returns every account to its exact pre-event balance: the whole
accounts table is unchanged. -/
theorem apply_reverse_restores_accounts (s : LedgerState) (e : Event)
    (hwf : wf s)
    (hsome : ∀ a ∈ s.accounts, a.current_balance.isSome = true)
    (hok : (applyEvent s e).2 = none) :
    (reverseEvent (applyEvent s e).1 e s.nextId).accounts = s.accounts := by
  cases e with
  | transaction aid ty amount =>
    have hfind : (createTransaction s aid ty amount).transactions.find?
        (fun t => t.id == s.nextId) = some (newTxRow s aid ty amount) := by
      show (s.transactions ++ [newTxRow s aid ty amount]).find?
          (fun t => t.id == s.nextId) = some (newTxRow s aid ty amount)
      refine find?_append_last _ _ (by simp [newTxRow]) s.transactions ?_
      intro t ht
      exact beq_eq_false_iff_ne.mpr (Nat.ne_of_lt (hwf.1 t ht))
    show (deleteTransaction (createTransaction s aid ty amount) s.nextId).accounts
      = s.accounts
    unfold deleteTransaction
    rw [hfind]
    show applyDeltaList [(aid, signedAmount (newTxRow s aid ty amount)),
        (aid, - signedAmount (newTxRow s aid ty amount))] s.accounts
      = s.accounts
    refine applyDeltaList_cancel _ s.accounts (fun a _ => ?_) hsome
    unfold deltaSum
    by_cases h : aid = a.id <;> simp [h] <;> ring_nf
  | transfer fromId toId amount =>
    have hfind : (createTransfer s fromId toId amount).transfers.find?
        (fun t => t.id == s.nextId) = some (newTransferRow s fromId toId amount) := by
      show (s.transfers ++ [newTransferRow s fromId toId amount]).find?
          (fun t => t.id == s.nextId) = some (newTransferRow s fromId toId amount)
      refine find?_append_last _ _ (by simp [newTransferRow]) s.transfers ?_
      intro t ht
      exact beq_eq_false_iff_ne.mpr (Nat.ne_of_lt (hwf.2.2.1 t ht))
    show (deleteTransfer (createTransfer s fromId toId amount) s.nextId).accounts
      = s.accounts
    unfold deleteTransfer
    rw [hfind]
    show applyDeltaList [(fromId, -amount), (toId, amount),
        (fromId, amount), (toId, -amount)] s.accounts = s.accounts
    refine applyDeltaList_cancel _ s.accounts (fun a _ => ?_) hsome
    unfold deltaSum
    by_cases h1 : fromId = a.id <;> by_cases h2 : toId = a.id <;>
      simp [h1, h2] <;> ring_nf
  | contribution c =>
    unfold applyEvent at hok ⊢
    unfold addContribution addContributionF at hok ⊢
    simp only [noFail, Bool.false_eq_true, if_false] at hok ⊢
    cases hfa : findAccount s c.account_id with
    | none =>
      rw [hfa] at hok
      exact absurd hok (by simp)
    | some acct =>
      rw [hfa] at hok
      dsimp only at hok
      dsimp only
      by_cases hlt : acct.current_balance.getD 0 < c.amount
      · rw [if_pos hlt] at hok
        exact absurd hok (by simp)
      · rw [if_neg hlt] at hok
        rw [if_neg hlt]
        cases hfg : findGoal (setAccountBalance (insContribState s c)
            c.account_id (acct.current_balance.getD 0 - c.amount)) c.goal_id with
        | none =>
          rw [hfg] at hok
          exact absurd hok (by simp)
        | some g =>
          dsimp only
          unfold reverseEvent
          exact contribution_roundtrip_accounts s c acct c.goal_id _ _ _
            hfa hwf.2.2.2.2.2.2 hsome

end MyFinance

namespace MyFinance

/-- Witness for `apply_reverse_restores_accounts`: a 40 contribution on the
sample state, applied and then removed. -/
theorem apply_reverse_restores_accounts_witness :
    wf sampleState ∧
    (∀ a ∈ sampleState.accounts, a.current_balance.isSome = true) ∧
    (applyEvent sampleState
      (.contribution { goal_id := "g1", account_id := "a1", amount := 40 })).2
        = none ∧
    (reverseEvent (applyEvent sampleState
        (.contribution { goal_id := "g1", account_id := "a1", amount := 40 })).1
      (.contribution { goal_id := "g1", account_id := "a1", amount := 40 })
      sampleState.nextId).accounts = sampleState.accounts :=
  ⟨by decide, by decide, by decide,
    apply_reverse_restores_accounts sampleState
      (.contribution { goal_id := "g1", account_id := "a1", amount := 40 })
      (by decide) (by decide) (by decide)⟩

end MyFinance
